import Mathlib

/-!
Genesis command controller and Result algebra.

A shallow embedding of `pkg/entity/result.go`, `pkg/controller/command.go` and the
configuration lookups of `testnet/manager.go` of the genesis worker, followed by
theorems about the embedded definitions.

Conventions of the embedding:

* a Go `error` is `Option GoError`, with `none` for `nil`;
* a Go `interface{}` value is a `GoValue` (scalar dynamic values only);
* a Go `map[string]interface{}` is a `GoMap`: `none` is the nil map and
  `some f` is an allocated map with lookup function `f`;
* `ResultType` is the underlying Go `int`, so that tags outside the six
  declared constants are representable, as they are in Go;
* broker side effects are recorded as a list of `Event`s in program order;
* interface-typed collaborators (queues, handler, logger) are present values;
* the goroutines of the dispatch loop are a transition system over `LoopState`,
  one move of the loop or one event of one worker per step.
-/

namespace Genesis

/-! ## Go values -/

/-- A non-nil Go `error`, identified by the text its `Error()` method returns. -/
structure GoError where
  msg : String
deriving DecidableEq, Repr

/-- Dynamic values that can be stored in an `interface{}`: the nil interface,
an error, a string, an integer or a boolean. -/
inductive GoValue where
  | nil : GoValue
  | err (e : GoError) : GoValue
  | str (s : String) : GoValue
  | int (i : Int) : GoValue
  | bool (b : Bool) : GoValue
deriving DecidableEq, Repr

/-- The text `fmt.Sprintf("%v", v)` produces: `<nil>` for the nil interface, the
`Error()` text for an error, the string itself, the decimal numeral, `true`/`false`. -/
def Sprintv : GoValue → String
  | .nil => "<nil>"
  | .err e => e.msg
  | .str s => s
  | .int i => toString i
  | .bool b => if b then "true" else "false"

/-- The call `fmt.Errorf("%v", v)`: always a fresh non-nil error carrying the
formatted text (Go `error` result, so wrapped in `some`). -/
def Errorf (v : GoValue) : Option GoError :=
  some ⟨Sprintv v⟩

/-- A Go `map[string]interface{}`: `none` is the nil map, `some f` an allocated
map whose entry under `k` is `f k`. -/
abbrev GoMap := Option (String → Option GoValue)

/-- The map literal `map[string]interface{}{}`: allocated and without entries. -/
def GoMap.emptyMap : GoMap := some (fun _ => none)

/-- Map indexing `m[k]` with the presence flag; a nil map has no entries. -/
def GoMap.lookup (m : GoMap) (k : String) : Option GoValue :=
  match m with
  | none => none
  | some f => f k

/-- The test `m == nil` on a map. -/
def GoMap.isNil (m : GoMap) : Bool := m.isNone

/-- A map built from a list of entries, earlier entries taking precedence. -/
def GoMap.ofList (l : List (String × GoValue)) : GoMap :=
  some (fun k => l.lookup k)

/-! ## Result (pkg/entity/result.go) -/

/-- The Go type `ResultType`, declared `type ResultType int`. -/
abbrev ResultType := Int

/-- Constant `SuccessType ResultType = iota + 1`. -/
def SuccessType : ResultType := 1
/-- Constant `AllDoneType`. -/
def AllDoneType : ResultType := 2
/-- Constant `TooSoonType`. -/
def TooSoonType : ResultType := 3
/-- Constant `FatalType`. -/
def FatalType : ResultType := 4
/-- Constant `ErrorType`. -/
def ErrorType : ResultType := 5
/-- Constant `RequeueType`. -/
def RequeueType : ResultType := 6

/-- The struct `Result`: an error (nil when absent), a type tag and metadata.
The Go field `Type` is named `Typ` here, `Type` being reserved. -/
structure Result where
  Error : Option GoError
  Typ : ResultType
  Meta : GoMap

/-- Method `IsAllDone`: `res.Error == nil && res.Type == AllDoneType`. -/
def Result.IsAllDone (res : Result) : Bool :=
  res.Error.isNone && res.Typ == AllDoneType

/-- Method `IsSuccess`: `res.Error == nil`. -/
def Result.IsSuccess (res : Result) : Bool :=
  res.Error.isNone

/-- Method `IsFatal`: `res.Error != nil && res.Type == FatalType`. -/
def Result.IsFatal (res : Result) : Bool :=
  res.Error.isSome && res.Typ == FatalType

/-- Method `IsRequeue`:
`res.Type == RequeueType || !res.IsSuccess() && !res.IsFatal()`. -/
def Result.IsRequeue (res : Result) : Bool :=
  res.Typ == RequeueType || (!res.IsSuccess && !res.IsFatal)

/-- Modelled from the spec: the method `IsTrap` of `Result`, which
`handleMessage` calls but `result.go` does not define. The spec gives
"IsTrap ≡ tag = TooSoon". -/
def Result.IsTrap (res : Result) : Bool :=
  res.Typ == TooSoonType

/-- Emptiness test that `mergo` applies to a destination entry: the nil interface,
the empty string, zero and `false` are empty; an error value is not. -/
def isEmptyValue : GoValue → Bool
  | .nil => true
  | .err _ => false
  | .str s => s.length == 0
  | .int i => i == 0
  | .bool b => !b

/-- One key of `mergo.Map(&dst, src)` called without options (so without
`WithOverride`) on two `map[string]interface{}` values with scalar entries:
a source entry is written only when it is not nil and the destination has no
entry, or an empty one, under that key; otherwise the destination entry stays. -/
def mergoMapKey (d s : Option GoValue) : Option GoValue :=
  match s with
  | none => d
  | some sv =>
    if sv = GoValue.nil then d
    else
      match d with
      | none => some sv
      | some dv => if isEmptyValue dv then some sv else some dv

/-- The effect of `mergo.Map(&dst, src)` on `dst`, both maps of type
`map[string]interface{}` with scalar entries. A nil destination is allocated
when the source is not nil; then every key is merged by `mergoMapKey`. -/
def mergoMap (dst src : GoMap) : GoMap :=
  match src with
  | none => dst
  | some s =>
    match dst with
    | none => some (fun k => mergoMapKey none (s k))
    | some d => some (fun k => mergoMapKey (d k) (s k))

/-- Method `InjectMeta`: `mergo.Map(&res.Meta, meta); return res`. -/
def Result.InjectMeta (res : Result) (meta : GoMap) : Result :=
  { res with Meta := mergoMap res.Meta meta }

/-- Constructor `NewSuccessResult`. -/
def NewSuccessResult : Result :=
  { Typ := SuccessType, Error := none, Meta := GoMap.emptyMap }

/-- Constructor `NewFatalResult`. -/
def NewFatalResult (err : GoValue) : Result :=
  { Typ := FatalType, Error := Errorf err, Meta := GoMap.emptyMap }

/-- Constructor `NewErrorResult`. -/
def NewErrorResult (err : GoValue) : Result :=
  { Typ := ErrorType, Error := Errorf err, Meta := GoMap.emptyMap }

/-- Constructor `NewAllDoneResult`. -/
def NewAllDoneResult : Result :=
  { Typ := AllDoneType, Error := none, Meta := GoMap.emptyMap }

/-- Constructor `NewRequeueResult`. -/
def NewRequeueResult : Result :=
  { Typ := RequeueType, Error := none, Meta := GoMap.emptyMap }

/-! ## Broker collaborators (github.com/streadway/amqp, github.com/whiteblock/amqp) -/

/-- An inbound `amqp.Delivery`: the broker tag that identifies it and its body. -/
structure Delivery where
  DeliveryTag : Nat
  Body : String
deriving DecidableEq, Repr

/-- An outbound `amqp.Publishing`, identified by its body. -/
structure Publishing where
  Body : String
deriving DecidableEq, Repr

/-- The three queue handles a controller owns. -/
inductive Queue where
  | cmds : Queue
  | errors : Queue
  | completion : Queue
deriving DecidableEq, Repr

/-- Levels of the logger calls made by the controller. -/
inductive Level where
  | debug : Level
  | info : Level
  | error : Level
  | fatal : Level
deriving DecidableEq, Repr

/-- Observable effects of the controller, recorded in program order.
`send Queue.errors` stands for the `errors.Send` call made inside the goroutine
that `handleMessage` starts with `go func()`; it is recorded where it is started. -/
inductive Event where
  | log (lvl : Level) (text : String) : Event
  | createQueue (q : Queue) : Event
  | consume (q : Queue) : Event
  | process (d : Delivery) : Event
  | ack (d : Delivery) (multiple : Bool) : Event
  | requeue (q : Queue) (d : Delivery) (p : Publishing) : Event
  | send (q : Queue) (p : Publishing) : Event
  | acquire (n : Int) : Event
  | release (n : Int) : Event
deriving DecidableEq, Repr

/-- The interface `queue.AMQPService` as the controller uses it: what each call
answers. `Consume` answers the deliveries the stream yields before it is closed,
together with the error of opening it. -/
structure AMQPService where
  CreateQueue : Option GoError
  Consume : List Delivery × Option GoError
  Send : Publishing → Option GoError
  Requeue : Delivery → Publishing → Option GoError

/-- The interface `handler.DeliveryHandler` as `handleMessage` calls it:
`pub, res := c.handle.Process(msg)` yields one publishing and a `Result`. -/
structure DeliveryHandler where
  Process : Delivery → Publishing × Result

/-- The logger handed to the controller; its calls are recorded as `Event.log`. -/
inductive Logger where
  | mk : Logger
deriving DecidableEq, Repr

/-- The state of a `sync.Once`: whether its function has already run. -/
structure Once where
  done : Bool
deriving DecidableEq, Repr

/-- The state of a `semaphore.Weighted`: its capacity and the permits held. -/
structure Weighted where
  size : Int
  cur : Int
deriving DecidableEq, Repr

/-- The call `semaphore.NewWeighted(n)`: capacity `n`, nothing held. -/
def NewWeighted (n : Int) : Weighted :=
  { size := n, cur := 0 }

/-! ## Command controller (pkg/controller/command.go) -/

/-- The struct `consumer`. -/
structure consumer where
  completion : AMQPService
  cmds : AMQPService
  errors : AMQPService
  handle : DeliveryHandler
  log : Logger
  once : Once
  sem : Weighted

/-- The two lines `if err != nil { log...Debug("failed attempt to create queue on start") }`
that follow each `CreateQueue` call of `NewCommandController`. -/
def logCreateQueue (err : Option GoError) : List Event :=
  match err with
  | some _ => [Event.log Level.debug "failed attempt to create queue on start"]
  | none => []

/-- The function `NewCommandController`: the controller returned (none for nil),
the error returned, and the effects performed on the way. -/
def NewCommandController (maxConcurreny : Int) (cmds errors completion : AMQPService)
    (handle : DeliveryHandler) (log : Logger) :
    Option consumer × Option GoError × List Event :=
  if maxConcurreny < 1 then
    (none, some ⟨"maxConcurreny must be at least 1"⟩, [])
  else
    let out : consumer :=
      { log := log
        completion := completion
        cmds := cmds
        handle := handle
        errors := errors
        once := { done := false }
        sem := NewWeighted maxConcurreny }
    let err := out.cmds.CreateQueue
    let ev1 := Event.createQueue Queue.cmds :: logCreateQueue err
    let err2 := out.completion.CreateQueue
    let ev2 := Event.createQueue Queue.completion :: logCreateQueue err2
    (some out, none, ev1 ++ ev2)

/-- The block `if res.IsFatal() { ... }` of `handleMessage`: build the error
publishing with `queue.CreateMessage` and, when that succeeds, send it to the
errors queue from a goroutine, logging a failure of either step. -/
def reportFatal (CreateMessage : Result → Publishing × Option GoError)
    (c : consumer) (res : Result) : List Event :=
  if res.IsFatal then
    match CreateMessage res with
    | (m, none) =>
      Event.send Queue.errors m ::
        (match c.errors.Send m with
         | some _ => [Event.log Level.error "an error occured while reporting an error"]
         | none => [])
    | (_, some _) => [Event.log Level.error "an error occured while reporting an error"]
  else []

/-- The tail of `handleMessage` reached when no early return happened:
`c.log.Info("successfully completed a message"); msg.Ack(false)`. -/
def ackTail (msg : Delivery) : List Event :=
  [Event.log Level.info "successfully completed a message", Event.ack msg false]

/-- The block `if res.IsTrap() { ...; msg.Ack(false); return }`. -/
def trapBranch (msg : Delivery) : List Event :=
  [Event.log Level.info "falling through due to trap", Event.ack msg false]

/-- The block `if res.IsRequeue() { ...; err := c.cmds.Requeue(msg, pub); ...; return }`:
the requeue call, an error log when it fails, and no acknowledgement. -/
def requeueBranch (c : consumer) (msg : Delivery) (pub : Publishing) : List Event :=
  Event.log Level.info "a requeue is needed" ::
  Event.requeue Queue.cmds msg pub ::
    (match c.cmds.Requeue msg pub with
     | some _ => [Event.log Level.error "failed to re-queue"]
     | none => [])

/-- The block `if res.IsAllDone() || res.IsFatal() { ... }` followed by the tail:
the fatal report, `c.completion.Send(pub)`, and on a send error the early
`return` that skips the acknowledgement. -/
def completionBranch (CreateMessage : Result → Publishing × Option GoError)
    (c : consumer) (msg : Delivery) (pub : Publishing) (res : Result) : List Event :=
  reportFatal CreateMessage c res ++
    (Event.log Level.info "sending the all done signal" ::
     Event.send Queue.completion pub ::
      (match c.completion.Send pub with
       | some _ => [Event.log Level.error "failed to send to the completion queue"]
       | none => ackTail msg))

/-- The body of `handleMessage` after `defer c.sem.Release(1)`. `CreateMessage`
is the package function `queue.CreateMessage` of the broker library. -/
def handleBody (CreateMessage : Result → Publishing × Option GoError)
    (c : consumer) (msg : Delivery) : List Event :=
  let pr := c.handle.Process msg
  let pub := pr.1
  let res := pr.2
  Event.process msg ::
    (if res.IsTrap then trapBranch msg
     else if res.IsRequeue then requeueBranch c msg pub
     else if res.IsAllDone || res.IsFatal then completionBranch CreateMessage c msg pub res
     else ackTail msg)

/-- The method `handleMessage`: its body, then the deferred `c.sem.Release(1)`. -/
def handleMessage (CreateMessage : Result → Publishing × Option GoError)
    (c : consumer) (msg : Delivery) : List Event :=
  handleBody CreateMessage c msg ++ [Event.release 1]

/-! ## Projections of a trace -/

/-- The `Ack` calls of a trace: the delivery acked and the `multiple` flag. -/
def acks (t : List Event) : List (Delivery × Bool) :=
  t.filterMap (fun e => match e with
    | Event.ack d m => some (d, m)
    | _ => none)

/-- The `Requeue` calls of a trace: queue, original delivery, replacement. -/
def requeues (t : List Event) : List (Queue × Delivery × Publishing) :=
  t.filterMap (fun e => match e with
    | Event.requeue q d p => some (q, d, p)
    | _ => none)

/-- The `Send` calls of a trace: queue and publishing. -/
def sends (t : List Event) : List (Queue × Publishing) :=
  t.filterMap (fun e => match e with
    | Event.send q p => some (q, p)
    | _ => none)

/-- The semaphore releases of a trace. -/
def releases (t : List Event) : List Int :=
  t.filterMap (fun e => match e with
    | Event.release n => some n
    | _ => none)

/-- The five dispatch predicates of a `Result`, in the order
(IsSuccess, IsAllDone, IsFatal, IsRequeue, IsTrap). -/
def Result.predicates (res : Result) : Bool × Bool × Bool × Bool × Bool :=
  (res.IsSuccess, res.IsAllDone, res.IsFatal, res.IsRequeue, res.IsTrap)

/-- Whether a map is allocated and has no entry: the value of the literal
`map[string]interface{}{}`. -/
def GoMap.allocatedEmpty (m : GoMap) : Prop :=
  m.isNil = false ∧ ∀ k, m.lookup k = none

/-! ## Sample collaborators used to instantiate the theorems -/

/-- A queue whose calls answer the given errors and whose stream is empty. -/
def sampleQueue (createErr sendErr requeueErr : Option GoError) : AMQPService :=
  { CreateQueue := createErr
    Consume := ([], none)
    Send := fun _ => sendErr
    Requeue := fun _ _ => requeueErr }

/-- A handler that answers every delivery with the same publishing and result. -/
def constHandler (pub : Publishing) (res : Result) : DeliveryHandler :=
  { Process := fun _ => (pub, res) }

/-- A controller over sample queues whose completion send answers `sendErr` and
whose requeue answers `requeueErr`, with capacity two as in the tests. -/
def sampleConsumer (pub : Publishing) (res : Result)
    (sendErr requeueErr : Option GoError) : consumer :=
  { completion := sampleQueue none sendErr none
    cmds := sampleQueue none none requeueErr
    errors := sampleQueue none none none
    handle := constHandler pub res
    log := Logger.mk
    once := { done := false }
    sem := NewWeighted 2 }

/-- A `queue.CreateMessage` that serialises the error text of a result. -/
def sampleCreateMessage (res : Result) : Publishing × Option GoError :=
  match res.Error with
  | some e => (⟨e.msg⟩, none)
  | none => (⟨""⟩, none)

/-- A delivery. -/
def sampleDelivery : Delivery := { DeliveryTag := 7, Body := "cmd" }

/-- A publishing, the one the sample handlers return. -/
def samplePub : Publishing := { Body := "next" }

/-- A result no constructor builds: tag `SuccessType` together with an error. -/
def successWithError : Result :=
  { Error := some ⟨"boom"⟩, Typ := SuccessType, Meta := GoMap.emptyMap }

/-- A result with tag `TooSoonType` that carries an error. -/
def tooSoonWithError : Result :=
  { Error := some ⟨"early"⟩, Typ := TooSoonType, Meta := GoMap.emptyMap }

/-- A result with tag `TooSoonType` and no error. -/
def tooSoonPlain : Result :=
  { Error := none, Typ := TooSoonType, Meta := GoMap.emptyMap }

/-- Metadata with the single entry `"stage" ↦ "build"`. -/
def metaFirst : GoMap := GoMap.ofList [("stage", GoValue.str "build")]

/-- Metadata with the entries `"stage" ↦ "deploy"` and `"node" ↦ 3`. -/
def metaSecond : GoMap :=
  GoMap.ofList [("stage", GoValue.str "deploy"), ("node", GoValue.int 3)]

/-- The requeue path of `handleMessage`: the trap test fails and `IsRequeue` holds. -/
def requeuePath (res : Result) : Bool :=
  !res.IsTrap && res.IsRequeue

/-- The completion-send-failure path of `handleMessage`: neither trap nor requeue, the
result is all-done or fatal, and `c.completion.Send(pub)` answers an error. -/
def sendFailurePath (c : consumer) (pub : Publishing) (res : Result) : Bool :=
  !res.IsTrap && !res.IsRequeue && (res.IsAllDone || res.IsFatal) &&
    (c.completion.Send pub).isSome

/-! ## Static blockchain configuration (testnet/manager.go) -/

/-- The function `GetParams`. `GetStaticBlockchainConfig` is the function of the
package `blockchains/helpers`, taken as a parameter: the bytes of the named file of
the named blockchain, and the error of reading it. -/
def GetParams (GetStaticBlockchainConfig : String → String → String × Option GoError)
    (blockchain : String) : String × Option GoError :=
  if _h : blockchain = "ethereum" then GetParams GetStaticBlockchainConfig "geth"
  else GetStaticBlockchainConfig blockchain "params.json"
termination_by (if blockchain = "ethereum" then 1 else 0)
decreasing_by simp [*]

/-- The function `GetDefaults`; its alias branch reads `return GetParams("geth")`. -/
def GetDefaults (GetStaticBlockchainConfig : String → String → String × Option GoError)
    (blockchain : String) : String × Option GoError :=
  if blockchain = "ethereum" then GetParams GetStaticBlockchainConfig "geth"
  else GetStaticBlockchainConfig blockchain "defaults.json"

/-- A configuration store in which geth has a `params.json` and a different
`defaults.json`, and nothing else exists. -/
def sampleStaticConfig (blockchain file : String) : String × Option GoError :=
  if blockchain = "geth" ∧ file = "params.json" then ("[[\"gasLimit\",\"int\"]]", none)
  else if blockchain = "geth" ∧ file = "defaults.json" then ("[\"gasLimit\",4000000]", none)
  else ("", some ⟨"no such file"⟩)

/-- A `queue.CreateMessage` that always fails to serialise. -/
def failingCreateMessage (_res : Result) : Publishing × Option GoError :=
  (⟨""⟩, some ⟨"cannot encode"⟩)

/-- The sample controller with an errors queue whose `Send` answers an error. -/
def sampleConsumerErrorsDown (pub : Publishing) (res : Result)
    (sendErr requeueErr : Option GoError) : consumer :=
  { sampleConsumer pub res sendErr requeueErr with
    errors := sampleQueue none (some ⟨"errors queue down"⟩) none }

/-! ## Dispatch loop (consumer.loop, consumer.Start)

The loop goroutine and the worker goroutines it starts run concurrently. Their
interleavings are the runs of a transition system: one move of the loop, or one
event of one started worker, at a time. -/

/-- The call `s.Acquire(ctx, n)` of `semaphore.Weighted` with a context that is never
cancelled: it goes through when `size - cur >= n`, adding `n` to `cur`; otherwise it
blocks, which is `none`. Only the loop acquires, so there is no other waiter. -/
def Weighted.Acquire (s : Weighted) (n : Int) : Option Weighted :=
  if s.size - s.cur ≥ n then some { s with cur := s.cur + n } else none

/-- The call `s.Release(n)` of `semaphore.Weighted`: subtracts `n` from `cur`, and
panics when that makes `cur` negative, which is `none`. -/
def Weighted.Release (s : Weighted) (n : Int) : Option Weighted :=
  if s.cur - n < 0 then none else some { s with cur := s.cur - n }

/-- Where the loop goroutine stands: at the head of `for msg := range msgs`; inside
`c.sem.Acquire` for a received delivery; returned because the stream is closed; or
gone with the process because `c.log.Fatal(err)` was called. -/
inductive LoopPc where
  | ranging : LoopPc
  | acquiring (d : Delivery) : LoopPc
  | done : LoopPc
  | exited : LoopPc
deriving DecidableEq, Repr

/-- A state of the running controller: the position of the loop, the deliveries the
stream has not yet yielded, the semaphore, the deliveries for which
`go c.handleMessage(msg)` was executed (in order), the events each started worker has
still to perform (in order of start), and the events performed so far. -/
structure LoopState where
  pc : LoopPc
  stream : List Delivery
  sem : Weighted
  started : List Delivery
  workers : List (List Event)
  trace : List Event
deriving DecidableEq, Repr

/-- The entry of `loop`: `msgs, err := c.cmds.Consume()`, and `c.log.Fatal(err)`, which
ends the process, when `err != nil`. -/
def loopEntry (c : consumer) : LoopState :=
  match c.cmds.Consume with
  | (msgs, none) =>
    { pc := LoopPc.ranging, stream := msgs, sem := c.sem, started := [], workers := [],
      trace := [Event.consume Queue.cmds] }
  | (_, some e) =>
    { pc := LoopPc.exited, stream := [], sem := c.sem, started := [], workers := [],
      trace := [Event.consume Queue.cmds, Event.log Level.fatal e.msg] }

/-- One move of the loop goroutine. At the head of the `for`: receive the next delivery
and log it, or return when the stream is closed. Inside `Acquire`: when a permit is
free take it and execute `go c.handleMessage(msg)`, else stay blocked (`none`). -/
def stepLoop (CreateMessage : Result → Publishing × Option GoError) (c : consumer)
    (s : LoopState) : Option LoopState :=
  match s.pc with
  | LoopPc.ranging =>
    match s.stream with
    | d :: rest =>
      some { s with pc := LoopPc.acquiring d, stream := rest,
                    trace := s.trace ++ [Event.log Level.info "received a message"] }
    | [] => some { s with pc := LoopPc.done }
  | LoopPc.acquiring d =>
    match s.sem.Acquire 1 with
    | some sem =>
      some { s with pc := LoopPc.ranging, sem := sem, started := s.started ++ [d],
                    workers := s.workers ++ [handleMessage CreateMessage c d],
                    trace := s.trace ++ [Event.acquire 1] }
    | none => none
  | LoopPc.done => none
  | LoopPc.exited => none

/-- One event of the worker started `i`-th: its next event is performed; a release
event gives its permits back to the semaphore. `none` when that worker does not exist,
has finished, or its release panics. -/
def stepWorker (i : Nat) (s : LoopState) : Option LoopState :=
  match s.workers[i]? with
  | some (e :: rest) =>
    match e with
    | Event.release n =>
      match s.sem.Release n with
      | some sem =>
        some { s with sem := sem, workers := s.workers.set i rest, trace := s.trace ++ [e] }
      | none => none
    | _ => some { s with workers := s.workers.set i rest, trace := s.trace ++ [e] }
  | _ => none

/-- Who moves next: the loop goroutine or the worker started `i`-th. -/
inductive Choice where
  | loop : Choice
  | worker (i : Nat) : Choice
deriving DecidableEq, Repr

/-- One step of the controller under a choice of the scheduler. -/
def step (CreateMessage : Result → Publishing × Option GoError) (c : consumer)
    (ch : Choice) (s : LoopState) : Option LoopState :=
  match ch with
  | Choice.loop => stepLoop CreateMessage c s
  | Choice.worker i => stepWorker i s

/-- The state reached by following a schedule, `none` when one of its choices cannot
move. -/
def run (CreateMessage : Result → Publishing × Option GoError) (c : consumer) :
    List Choice → LoopState → Option LoopState
  | [], s => some s
  | ch :: rest, s =>
    match step CreateMessage c ch s with
    | some s1 => run CreateMessage c rest s1
    | none => none

/-- The loop has returned (or the process has exited) and every started worker has
performed all its events. -/
def finished (s : LoopState) : Bool :=
  (s.pc == LoopPc.done || s.pc == LoopPc.exited) && s.workers.all List.isEmpty

/-- The number of started workers that have not yet released their permit. -/
def inFlight (s : LoopState) : Nat :=
  s.workers.countP (fun w => decide (releases w ≠ []))

/-- The `handler.Process` calls of a trace. -/
def processed (t : List Event) : List Delivery :=
  t.filterMap (fun e => match e with
    | Event.process d => some d
    | _ => none)

/-- The semaphore acquisitions of a trace. -/
def acquires (t : List Event) : List Int :=
  t.filterMap (fun e => match e with
    | Event.acquire n => some n
    | _ => none)

/-- The `Consume` calls of a trace. -/
def consumes (t : List Event) : List Queue :=
  t.filterMap (fun e => match e with
    | Event.consume q => some q
    | _ => none)

/-- The number of steps a state still has to make before it is finished. -/
def stepsLeft (CreateMessage : Result → Publishing × Option GoError) (c : consumer)
    (s : LoopState) : Nat :=
  (match s.pc with
   | LoopPc.ranging => 1
   | LoopPc.acquiring d => 2 + (handleMessage CreateMessage c d).length
   | LoopPc.done => 0
   | LoopPc.exited => 0) +
  (s.stream.map (fun d => 2 + (handleMessage CreateMessage c d).length)).sum +
  s.workers.flatten.length

/-- The method `Start`: `c.once.Do(func() { c.loop() })`. The first call marks the
guard and enters the loop, whose entry state is returned; a call on a marked guard
does nothing. -/
def Start (c : consumer) : consumer × Option LoopState :=
  if c.once.done then (c, none)
  else ({ c with once := { done := true } }, some (loopEntry c))

/-- Calling `Start` `n` times in a row on one controller: the controller afterwards and
the loops entered, in order. -/
def startTimes : Nat → consumer → consumer × List LoopState
  | 0, c => (c, [])
  | n + 1, c =>
    match Start c with
    | (c1, some l) => ((startTimes n c1).1, l :: (startTimes n c1).2)
    | (c1, none) => startTimes n c1

/-- A commands queue whose stream yields the given deliveries and then closes. -/
def streamQueue (msgs : List Delivery) : AMQPService :=
  { CreateQueue := none
    Consume := (msgs, none)
    Send := fun _ => none
    Requeue := fun _ _ => none }

/-- A second delivery. -/
def sampleDelivery2 : Delivery := { DeliveryTag := 8, Body := "cmd2" }

/-- The controller `NewCommandController` builds with concurrency `n` over a commands
stream `msgs` and a handler answering every delivery with `res`. -/
def streamConsumer (n : Int) (msgs : List Delivery) (res : Result) : consumer :=
  { completion := sampleQueue none none none
    cmds := streamQueue msgs
    errors := sampleQueue none none none
    handle := constHandler samplePub res
    log := Logger.mk
    once := { done := false }
    sem := NewWeighted n }

/-- What remains of a worker holds at most one release, of one permit, and no acquire. -/
def WorkerOk (w : List Event) : Prop :=
  (releases w = [] ∨ releases w = [1]) ∧ acquires w = []

/-- The permit invariant of a running controller of capacity `n`: the permits held are
the workers in flight, never more than `n`; one permit was acquired per started worker;
and a process that exited at the entry of the loop has no worker. -/
def PermitsInv (n : Int) (s : LoopState) : Prop :=
  s.sem.size = n ∧ s.sem.cur = (inFlight s : Int) ∧ s.sem.cur ≤ n ∧
  (∀ w ∈ s.workers, WorkerOk w) ∧
  s.workers.length = s.started.length ∧
  acquires s.trace = List.replicate s.started.length 1 ∧
  (s.pc = LoopPc.exited → s.workers = [])

/-- A schedule that runs the loop over two deliveries with one permit: admit the
first, let its worker perform its four events, admit the second, let that worker
finish, and let the loop see the closed stream. -/
def sequentialSchedule : List Choice :=
  [Choice.loop, Choice.loop, Choice.worker 0, Choice.worker 0, Choice.worker 0,
   Choice.worker 0, Choice.loop, Choice.loop, Choice.worker 1, Choice.worker 1,
   Choice.worker 1, Choice.worker 1, Choice.loop]

/-- A schedule that admits the first delivery and receives the second, with no
worker event performed. -/
def admitOnlySchedule : List Choice :=
  [Choice.loop, Choice.loop, Choice.loop]

/-- The controller with one permit over a stream of two deliveries, every result a
plain success. -/
def twoDeliveries : consumer :=
  streamConsumer 1 [sampleDelivery, sampleDelivery2] NewSuccessResult

/-- The delivery invariant of a running loop over the stream `msgs`: the process has
not exited; the deliveries started, the one being admitted and those still in the
stream are `msgs` in order; a returned loop has an empty stream; and the `Process`
calls made or still to be made by started workers are the deliveries started. -/
def DeliveryInv (msgs : List Delivery) (s : LoopState) : Prop :=
  s.pc ≠ LoopPc.exited ∧
  s.started ++ (match s.pc with
    | LoopPc.acquiring d => [d]
    | _ => []) ++ s.stream = msgs ∧
  (s.pc = LoopPc.done → s.stream = []) ∧
  List.Perm (processed s.trace ++ processed s.workers.flatten) s.started

/-! ## Theorems -/

/-- C1: for every argument `e`, the five constructors have exactly the truth table
of the spec over (IsSuccess, IsAllDone, IsFatal, IsRequeue, IsTrap). -/
theorem constructors_truth_table (e : GoValue) :
    NewSuccessResult.predicates = (true, false, false, false, false) ∧
    NewAllDoneResult.predicates = (true, true, false, false, false) ∧
    (NewFatalResult e).predicates = (false, false, true, false, false) ∧
    (NewErrorResult e).predicates = (false, false, false, true, false) ∧
    NewRequeueResult.predicates = (true, false, false, true, false) := by
  refine ⟨rfl, rfl, ?_, ?_, rfl⟩ <;> rfl

/-- C2: a result that carries an error and whose tag is neither Fatal nor TooSoon is
not a success, not fatal, not a trap, and is a requeue; `handleMessage` then runs
exactly the requeue branch on it. -/
theorem error_result_takes_requeue_branch (r : Result)
    (herr : r.Error.isSome = true) (hf : r.Typ ≠ FatalType) (ht : r.Typ ≠ TooSoonType) :
    r.IsSuccess = false ∧ r.IsFatal = false ∧ r.IsTrap = false ∧ r.IsRequeue = true ∧
    ∀ (CreateMessage : Result → Publishing × Option GoError) (c : consumer) (msg : Delivery),
      (c.handle.Process msg).2 = r →
      handleMessage CreateMessage c msg =
        Event.process msg :: requeueBranch c msg (c.handle.Process msg).1
          ++ [Event.release 1] := by
  have hs : r.IsSuccess = false := by
    cases hE : r.Error <;> simp [Result.IsSuccess, hE] at herr ⊢
  have hfat : r.IsFatal = false := by simp [Result.IsFatal, hf]
  have htrap : r.IsTrap = false := by simp [Result.IsTrap, ht]
  have hreq : r.IsRequeue = true := by simp [Result.IsRequeue, hs, hfat]
  refine ⟨hs, hfat, htrap, hreq, ?_⟩
  intro CreateMessage c msg hp
  simp [handleMessage, handleBody, hp, htrap, hreq]

/-- Witness for C2: a Success-tagged result with an error is requeued, not acked. -/
theorem error_result_takes_requeue_branch_witness :
    successWithError.IsSuccess = false ∧ successWithError.IsFatal = false ∧
    successWithError.IsTrap = false ∧ successWithError.IsRequeue = true ∧
    handleMessage sampleCreateMessage
        (sampleConsumer samplePub successWithError none none) sampleDelivery =
      [Event.process sampleDelivery,
       Event.log Level.info "a requeue is needed",
       Event.requeue Queue.cmds sampleDelivery samplePub,
       Event.release 1] := by
  have h := error_result_takes_requeue_branch successWithError (by decide) (by decide)
    (by decide)
  exact ⟨h.1, h.2.1, h.2.2.1, h.2.2.2.1,
    h.2.2.2.2 sampleCreateMessage
      (sampleConsumer samplePub successWithError none none) sampleDelivery rfl⟩

/-- C3: every constructor returns allocated, empty metadata and the tag of its name;
the Success, AllDone and Requeue constructors carry no error; the Fatal and Error
constructors carry, for every argument, a non-nil error whose text is the `%v`
formatting of the argument. -/
theorem constructors_fields (e : GoValue) :
    (NewSuccessResult.Meta.allocatedEmpty ∧ NewSuccessResult.Typ = SuccessType ∧
      NewSuccessResult.Error = none) ∧
    (NewAllDoneResult.Meta.allocatedEmpty ∧ NewAllDoneResult.Typ = AllDoneType ∧
      NewAllDoneResult.Error = none) ∧
    (NewRequeueResult.Meta.allocatedEmpty ∧ NewRequeueResult.Typ = RequeueType ∧
      NewRequeueResult.Error = none) ∧
    ((NewFatalResult e).Meta.allocatedEmpty ∧ (NewFatalResult e).Typ = FatalType ∧
      (NewFatalResult e).Error = some ⟨Sprintv e⟩) ∧
    ((NewErrorResult e).Meta.allocatedEmpty ∧ (NewErrorResult e).Typ = ErrorType ∧
      (NewErrorResult e).Error = some ⟨Sprintv e⟩) := by
  have hm : GoMap.emptyMap.allocatedEmpty := ⟨rfl, fun _ => rfl⟩
  exact ⟨⟨hm, rfl, rfl⟩, ⟨hm, rfl, rfl⟩, ⟨hm, rfl, rfl⟩, ⟨hm, rfl, rfl⟩, ⟨hm, rfl, rfl⟩⟩

/-- C4, counterexample: chaining `InjectMeta` on a fresh success result, the first
call stores `"stage" ↦ "build"`; the second call is given `"stage" ↦ "deploy"` and
the result still maps `"stage"` to `"build"`, not to the value of the argument. -/
theorem injectMeta_keeps_existing_value :
    metaSecond.lookup "stage" = some (GoValue.str "deploy") ∧
    (NewSuccessResult.InjectMeta metaFirst).Meta.lookup "stage"
      = some (GoValue.str "build") ∧
    ((NewSuccessResult.InjectMeta metaFirst).InjectMeta metaSecond).Meta.lookup "stage"
      = some (GoValue.str "build") ∧
    ((NewSuccessResult.InjectMeta metaFirst).InjectMeta metaSecond).Meta.lookup "stage"
      ≠ metaSecond.lookup "stage" := by
  simp [metaFirst, metaSecond, GoMap.ofList, GoMap.lookup, Result.InjectMeta, mergoMap,
    mergoMapKey, NewSuccessResult, GoMap.emptyMap, List.lookup, isEmptyValue]
  decide

/-- C4, amended: `InjectMeta` changes neither error nor tag, and merges per key
without overriding: a key absent from `m` keeps the value of `r`; a key under
which `r` holds a non-empty value keeps that value whatever `m` holds; a key that
`r` lacks, or holds empty, takes the value of `m` when that value is not nil. -/
theorem injectMeta_merge (r : Result) (m : GoMap) (k : String) :
    (r.InjectMeta m).Error = r.Error ∧ (r.InjectMeta m).Typ = r.Typ ∧
    (m.lookup k = none → (r.InjectMeta m).Meta.lookup k = r.Meta.lookup k) ∧
    (∀ d, r.Meta.lookup k = some d → isEmptyValue d = false →
      (r.InjectMeta m).Meta.lookup k = some d) ∧
    (∀ v, m.lookup k = some v → v ≠ GoValue.nil → r.Meta.lookup k = none →
      (r.InjectMeta m).Meta.lookup k = some v) ∧
    (∀ v d, m.lookup k = some v → v ≠ GoValue.nil → r.Meta.lookup k = some d →
      isEmptyValue d = true → (r.InjectMeta m).Meta.lookup k = some v) := by
  obtain ⟨e, t, dm⟩ := r
  refine ⟨rfl, rfl, ?_, ?_, ?_, ?_⟩
  · intro hm
    cases m <;> cases dm <;>
      simp_all [Result.InjectMeta, mergoMap, mergoMapKey, GoMap.lookup]
  · intro d hd hne
    cases m <;> cases dm <;>
      simp_all [Result.InjectMeta, mergoMap, mergoMapKey, GoMap.lookup]
    split <;> simp_all
  · intro v hv hnil hd
    cases m <;> cases dm <;>
      simp_all [Result.InjectMeta, mergoMap, mergoMapKey, GoMap.lookup]
  · intro v d hv hnil hd hemp
    cases m <;> cases dm <;>
      simp_all [Result.InjectMeta, mergoMap, mergoMapKey, GoMap.lookup]

/-- Witness for C4 amended: on the chained sample, `"stage"` keeps the first value
and `"node"`, new to the result, takes the value of the argument. -/
theorem injectMeta_merge_witness :
    ((NewSuccessResult.InjectMeta metaFirst).InjectMeta metaSecond).Meta.lookup "stage"
      = some (GoValue.str "build") ∧
    ((NewSuccessResult.InjectMeta metaFirst).InjectMeta metaSecond).Meta.lookup "node"
      = some (GoValue.int 3) := by
  refine ⟨(injectMeta_merge (NewSuccessResult.InjectMeta metaFirst) metaSecond
      "stage").2.2.2.1 (GoValue.str "build") ?_ ?_,
    (injectMeta_merge (NewSuccessResult.InjectMeta metaFirst) metaSecond
      "node").2.2.2.2.1 (GoValue.int 3) ?_ ?_ ?_⟩
  all_goals
    simp [metaFirst, metaSecond, GoMap.ofList, GoMap.lookup, Result.InjectMeta, mergoMap,
      mergoMapKey, NewSuccessResult, GoMap.emptyMap, List.lookup, isEmptyValue]
  decide

/-- C5: for every `maxConcurreny < 1` and all other arguments, `NewCommandController`
returns no controller and a non-nil error, and touches no queue. -/
theorem NewCommandController_rejects (maxConcurreny : Int) (h : maxConcurreny < 1)
    (cmds errors completion : AMQPService) (handle : DeliveryHandler) (log : Logger) :
    (NewCommandController maxConcurreny cmds errors completion handle log).1.isNone = true ∧
    (NewCommandController maxConcurreny cmds errors completion handle log).2.1
      = some ⟨"maxConcurreny must be at least 1"⟩ ∧
    (NewCommandController maxConcurreny cmds errors completion handle log).2.1 ≠ none ∧
    (NewCommandController maxConcurreny cmds errors completion handle log).2.2 = [] := by
  simp [NewCommandController, h]

/-- Witness for C5: concurrency zero, as in `TestNewCommandController_Failure`, and a
negative concurrency. -/
theorem NewCommandController_rejects_witness :
    (NewCommandController 0 (sampleQueue none none none) (sampleQueue none none none)
      (sampleQueue none none none) (constHandler samplePub NewSuccessResult)
      Logger.mk).1.isNone = true ∧
    (NewCommandController (-5) (sampleQueue none none none) (sampleQueue none none none)
      (sampleQueue none none none) (constHandler samplePub NewSuccessResult)
      Logger.mk).2.1 ≠ none :=
  ⟨(NewCommandController_rejects 0 (by decide) _ _ _ _ _).1,
   (NewCommandController_rejects (-5) (by decide) _ _ _ _ _).2.2.1⟩

/-- C6: for every `maxConcurreny ≥ 1`, `NewCommandController` returns a controller and
a nil error whatever `CreateQueue` answers on the commands and completion queues; it
calls `CreateQueue` once on each of the two, and the controller holds the arguments, a
fresh start guard and a semaphore of capacity `maxConcurreny` with nothing held. -/
theorem NewCommandController_ignores_createQueue (maxConcurreny : Int)
    (h : 1 ≤ maxConcurreny) (cmds errors completion : AMQPService)
    (handle : DeliveryHandler) (log : Logger) :
    (NewCommandController maxConcurreny cmds errors completion handle log).1 =
      some { completion := completion, cmds := cmds, errors := errors, handle := handle,
             log := log, once := { done := false },
             sem := { size := maxConcurreny, cur := 0 } } ∧
    (NewCommandController maxConcurreny cmds errors completion handle log).2.1 = none ∧
    (NewCommandController maxConcurreny cmds errors completion handle log).2.2.filter
        (fun e => e matches Event.createQueue _)
      = [Event.createQueue Queue.cmds, Event.createQueue Queue.completion] := by
  have hlt : ¬ maxConcurreny < 1 := by omega
  refine ⟨?_, ?_, ?_⟩
  · simp [NewCommandController, hlt, NewWeighted]
  · simp [NewCommandController, hlt]
  · cases h1 : cmds.CreateQueue <;> cases h2 : completion.CreateQueue <;>
      simp [NewCommandController, hlt, logCreateQueue, h1, h2]

/-- Witness for C6: both `CreateQueue` calls fail, as in
`TestNewCommandController_Ignore_CreateQueueFailure`, and a controller is returned. -/
theorem NewCommandController_ignores_createQueue_witness :
    (NewCommandController 2 (sampleQueue (some ⟨"err"⟩) none none)
      (sampleQueue (some ⟨"err"⟩) none none) (sampleQueue (some ⟨"err"⟩) none none)
      (constHandler samplePub NewSuccessResult) Logger.mk).1.isSome = true ∧
    (NewCommandController 2 (sampleQueue (some ⟨"err"⟩) none none)
      (sampleQueue (some ⟨"err"⟩) none none) (sampleQueue (some ⟨"err"⟩) none none)
      (constHandler samplePub NewSuccessResult) Logger.mk).2.1 = none := by
  have h := NewCommandController_ignores_createQueue 2 (by decide)
    (sampleQueue (some ⟨"err"⟩) none none) (sampleQueue (some ⟨"err"⟩) none none)
    (sampleQueue (some ⟨"err"⟩) none none) (constHandler samplePub NewSuccessResult)
    Logger.mk
  exact ⟨by rw [h.1]; rfl, h.2.1⟩

/-- C7: for every delivery whose result has tag TooSoon, with or without an error
and whether or not the result also counts as a requeue, `handleMessage` runs the trap
branch: one `Ack(false)` on the delivery, no `Requeue`, no `Send` on any queue. -/
theorem trap_acks_once (CreateMessage : Result → Publishing × Option GoError)
    (c : consumer) (msg : Delivery)
    (h : (c.handle.Process msg).2.Typ = TooSoonType) :
    (c.handle.Process msg).2.IsTrap = true ∧
    handleMessage CreateMessage c msg
      = Event.process msg :: trapBranch msg ++ [Event.release 1] ∧
    acks (handleMessage CreateMessage c msg) = [(msg, false)] ∧
    requeues (handleMessage CreateMessage c msg) = [] ∧
    sends (handleMessage CreateMessage c msg) = [] := by
  have ht : (c.handle.Process msg).2.IsTrap = true := by simp [Result.IsTrap, h]
  simp [handleMessage, handleBody, ht, trapBranch, acks, requeues, sends]

/-- Witness for C7: a TooSoon result with an error satisfies `IsRequeue` as well as
`IsTrap`, and is acked once and not requeued; so is a TooSoon result without error. -/
theorem trap_acks_once_witness :
    tooSoonWithError.IsRequeue = true ∧
    acks (handleMessage sampleCreateMessage
      (sampleConsumer samplePub tooSoonWithError none none) sampleDelivery)
        = [(sampleDelivery, false)] ∧
    requeues (handleMessage sampleCreateMessage
      (sampleConsumer samplePub tooSoonWithError none none) sampleDelivery) = [] ∧
    acks (handleMessage sampleCreateMessage
      (sampleConsumer samplePub tooSoonPlain none none) sampleDelivery)
        = [(sampleDelivery, false)] :=
  ⟨by decide,
   (trap_acks_once sampleCreateMessage
      (sampleConsumer samplePub tooSoonWithError none none) sampleDelivery rfl).2.2.1,
   (trap_acks_once sampleCreateMessage
      (sampleConsumer samplePub tooSoonWithError none none) sampleDelivery rfl).2.2.2.1,
   (trap_acks_once sampleCreateMessage
      (sampleConsumer samplePub tooSoonPlain none none) sampleDelivery rfl).2.2.1⟩

/-- C8: for every delivery whose result is a requeue and not a trap, `handleMessage`
calls `cmds.Requeue` exactly once, on that delivery, and calls neither `Ack` nor `Send`
on any queue, whatever `Requeue` answers; the only other call is the permit release. -/
theorem requeue_once_no_ack (CreateMessage : Result → Publishing × Option GoError)
    (c : consumer) (msg : Delivery)
    (hq : (c.handle.Process msg).2.IsRequeue = true)
    (ht : (c.handle.Process msg).2.IsTrap = false) :
    (requeues (handleMessage CreateMessage c msg)).length = 1 ∧
    (requeues (handleMessage CreateMessage c msg)).map (fun x => (x.1, x.2.1))
      = [(Queue.cmds, msg)] ∧
    acks (handleMessage CreateMessage c msg) = [] ∧
    sends (handleMessage CreateMessage c msg) = [] ∧
    releases (handleMessage CreateMessage c msg) = [1] := by
  cases hr : c.cmds.Requeue msg (c.handle.Process msg).1 <;>
    simp [handleMessage, handleBody, hq, ht, requeueBranch, hr, acks, requeues, sends,
      releases]

/-- Witness for C8: the result of `NewErrorResult`, once with a `Requeue` that succeeds
and once with a `Requeue` that fails: one requeue and no ack in both runs. -/
theorem requeue_once_no_ack_witness :
    (requeues (handleMessage sampleCreateMessage
      (sampleConsumer samplePub (NewErrorResult (GoValue.str "boom")) none none)
      sampleDelivery)).length = 1 ∧
    acks (handleMessage sampleCreateMessage
      (sampleConsumer samplePub (NewErrorResult (GoValue.str "boom")) none none)
      sampleDelivery) = [] ∧
    (requeues (handleMessage sampleCreateMessage
      (sampleConsumer samplePub (NewErrorResult (GoValue.str "boom")) none
        (some ⟨"down"⟩)) sampleDelivery)).length = 1 ∧
    acks (handleMessage sampleCreateMessage
      (sampleConsumer samplePub (NewErrorResult (GoValue.str "boom")) none
        (some ⟨"down"⟩)) sampleDelivery) = [] :=
  ⟨(requeue_once_no_ack sampleCreateMessage
      (sampleConsumer samplePub (NewErrorResult (GoValue.str "boom")) none none)
      sampleDelivery rfl rfl).1,
   (requeue_once_no_ack sampleCreateMessage
      (sampleConsumer samplePub (NewErrorResult (GoValue.str "boom")) none none)
      sampleDelivery rfl rfl).2.2.1,
   (requeue_once_no_ack sampleCreateMessage
      (sampleConsumer samplePub (NewErrorResult (GoValue.str "boom")) none
        (some ⟨"down"⟩)) sampleDelivery rfl rfl).1,
   (requeue_once_no_ack sampleCreateMessage
      (sampleConsumer samplePub (NewErrorResult (GoValue.str "boom")) none
        (some ⟨"down"⟩)) sampleDelivery rfl rfl).2.2.1⟩

/-- An AllDone result is neither a trap, nor a requeue, nor fatal. -/
theorem allDone_excludes (r : Result) (h : r.IsAllDone = true) :
    r.IsTrap = false ∧ r.IsRequeue = false ∧ r.IsFatal = false := by
  obtain ⟨e, t, m⟩ := r
  cases e <;>
    simp_all [Result.IsAllDone, Result.IsTrap, Result.IsRequeue, Result.IsFatal,
      Result.IsSuccess, AllDoneType, TooSoonType, RequeueType, FatalType]

/-- A Fatal result is neither a trap, nor a requeue, nor all-done. -/
theorem fatal_excludes (r : Result) (h : r.IsFatal = true) :
    r.IsTrap = false ∧ r.IsRequeue = false ∧ r.IsAllDone = false := by
  obtain ⟨e, t, m⟩ := r
  cases e <;>
    simp_all [Result.IsAllDone, Result.IsTrap, Result.IsRequeue, Result.IsFatal,
      Result.IsSuccess, AllDoneType, TooSoonType, RequeueType, FatalType]

/-- The fatal report contains no ack, no requeue and no send to the completion queue. -/
theorem reportFatal_projections (CreateMessage : Result → Publishing × Option GoError)
    (c : consumer) (res : Result) :
    acks (reportFatal CreateMessage c res) = [] ∧
    requeues (reportFatal CreateMessage c res) = [] ∧
    (sends (reportFatal CreateMessage c res)).filter (fun x => x.1 = Queue.completion) = [] ∧
    releases (reportFatal CreateMessage c res) = [] := by
  unfold reportFatal
  by_cases hf : res.IsFatal = true
  · rcases hcm : CreateMessage res with ⟨m, _ | e⟩
    · cases hs : c.errors.Send m <;>
        simp [hf, hs, acks, requeues, sends, releases]
    · simp [hf, acks, requeues, sends, releases]
  · simp [hf, acks, requeues, sends, releases]

/-- The acks of a concatenation. -/
theorem acks_append (a b : List Event) : acks (a ++ b) = acks a ++ acks b := by
  simp [acks, List.filterMap_append]

/-- The requeues of a concatenation. -/
theorem requeues_append (a b : List Event) :
    requeues (a ++ b) = requeues a ++ requeues b := by
  simp [requeues, List.filterMap_append]

/-- The sends of a concatenation. -/
theorem sends_append (a b : List Event) : sends (a ++ b) = sends a ++ sends b := by
  simp [sends, List.filterMap_append]

/-- The releases of a concatenation. -/
theorem releases_append (a b : List Event) :
    releases (a ++ b) = releases a ++ releases b := by
  simp [releases, List.filterMap_append]

/-- The trace of `handleMessage` on a result that is all-done or fatal. -/
theorem handleMessage_completion (CreateMessage : Result → Publishing × Option GoError)
    (c : consumer) (msg : Delivery)
    (h : (c.handle.Process msg).2.IsAllDone = true ∨ (c.handle.Process msg).2.IsFatal = true) :
    handleMessage CreateMessage c msg =
      [Event.process msg] ++
        completionBranch CreateMessage c msg (c.handle.Process msg).1 (c.handle.Process msg).2
        ++ [Event.release 1] := by
  rcases h with h | h
  · obtain ⟨h1, h2, -⟩ := allDone_excludes _ h
    simp [handleMessage, handleBody, h, h1, h2]
  · obtain ⟨h1, h2, -⟩ := fatal_excludes _ h
    simp [handleMessage, handleBody, h, h1, h2]

/-- On a result that is all-done or fatal, the sends of `handleMessage` to the
completion queue are exactly one, carrying the publishing `Process` returned. -/
theorem handleMessage_completion_sends
    (CreateMessage : Result → Publishing × Option GoError) (c : consumer) (msg : Delivery)
    (h : (c.handle.Process msg).2.IsAllDone = true ∨ (c.handle.Process msg).2.IsFatal = true) :
    (sends (handleMessage CreateMessage c msg)).filter (fun x => x.1 = Queue.completion)
      = [(Queue.completion, (c.handle.Process msg).1)] := by
  rw [handleMessage_completion CreateMessage c msg h]
  unfold completionBranch reportFatal
  by_cases hf : (c.handle.Process msg).2.IsFatal = true
  · rcases hcm : CreateMessage (c.handle.Process msg).2 with ⟨m, _ | e⟩
    · cases hes : c.errors.Send m <;>
        cases hs : c.completion.Send (c.handle.Process msg).1 <;>
        simp [hf, hes, hs, sends, ackTail]
    · cases hs : c.completion.Send (c.handle.Process msg).1 <;>
        simp [hf, hs, sends, ackTail]
  · cases hs : c.completion.Send (c.handle.Process msg).1 <;>
      simp [hf, hs, sends, ackTail]

/-- C9, counterexample: the handler yields one publishing, `samplePub`. With a requeue
result that publishing is the one handed to `cmds.Requeue`; with an all-done result
the very same publishing is the one sent to the completion queue. -/
theorem requeue_gets_completion_publishing :
    ((sampleConsumer samplePub (NewErrorResult (GoValue.str "boom")) none none).handle.Process
      sampleDelivery).1 = samplePub ∧
    ((sampleConsumer samplePub NewAllDoneResult none none).handle.Process
      sampleDelivery).1 = samplePub ∧
    requeues (handleMessage sampleCreateMessage
      (sampleConsumer samplePub (NewErrorResult (GoValue.str "boom")) none none)
      sampleDelivery) = [(Queue.cmds, sampleDelivery, samplePub)] ∧
    sends (handleMessage sampleCreateMessage
      (sampleConsumer samplePub NewAllDoneResult none none) sampleDelivery)
        = [(Queue.completion, samplePub)] := by
  decide

/-- C9, amended: `Process` yields one publishing and a result. For every delivery whose
result is a requeue and not a trap, the publishing handed to `cmds.Requeue` is that one
publishing; and it is the publishing the completion branch sends: had the handler
returned it with an all-done or fatal result, it would go to the completion queue. -/
theorem requeue_publishing_is_handler_publishing
    (CreateMessage : Result → Publishing × Option GoError) (c : consumer) (msg : Delivery)
    (hq : (c.handle.Process msg).2.IsRequeue = true)
    (ht : (c.handle.Process msg).2.IsTrap = false) :
    requeues (handleMessage CreateMessage c msg)
      = [(Queue.cmds, msg, (c.handle.Process msg).1)] ∧
    ∀ res : Result, res.IsAllDone = true ∨ res.IsFatal = true →
      (sends (handleMessage CreateMessage
          { c with handle := constHandler (c.handle.Process msg).1 res } msg)).filter
        (fun x => x.1 = Queue.completion)
        = [(Queue.completion, (c.handle.Process msg).1)] := by
  constructor
  · cases hr : c.cmds.Requeue msg (c.handle.Process msg).1 <;>
      simp [handleMessage, handleBody, hq, ht, requeueBranch, hr, requeues]
  · intro res hres
    exact handleMessage_completion_sends CreateMessage
      { c with handle := constHandler (c.handle.Process msg).1 res } msg hres

/-- Witness for C9 amended: a handler returning `samplePub` with the requeue result
of `NewRequeueResult` has `samplePub` handed to `cmds.Requeue`; returning it with the
all-done result has it sent to the completion queue. -/
theorem requeue_publishing_is_handler_publishing_witness :
    requeues (handleMessage sampleCreateMessage
      (sampleConsumer samplePub NewRequeueResult none none) sampleDelivery)
        = [(Queue.cmds, sampleDelivery, samplePub)] ∧
    (sends (handleMessage sampleCreateMessage
      (sampleConsumer samplePub NewAllDoneResult none none) sampleDelivery)).filter
        (fun x => x.1 = Queue.completion) = [(Queue.completion, samplePub)] :=
  ⟨(requeue_publishing_is_handler_publishing sampleCreateMessage
      (sampleConsumer samplePub NewRequeueResult none none) sampleDelivery rfl rfl).1,
   (requeue_publishing_is_handler_publishing sampleCreateMessage
      (sampleConsumer samplePub NewRequeueResult none none) sampleDelivery rfl rfl).2
      NewAllDoneResult (Or.inl rfl)⟩

/-- C10: for every delivery whose result is all-done or fatal (such a result is neither
a trap nor a requeue), `handleMessage` calls `completion.Send` exactly once, with the
publishing of the handler; it calls `Ack(false)` exactly once when that send answers no
error and not at all when it answers an error; it never calls `Requeue`. -/
theorem completion_send_then_ack (CreateMessage : Result → Publishing × Option GoError)
    (c : consumer) (msg : Delivery)
    (h : (c.handle.Process msg).2.IsAllDone = true ∨ (c.handle.Process msg).2.IsFatal = true) :
    (c.handle.Process msg).2.IsTrap = false ∧
    (c.handle.Process msg).2.IsRequeue = false ∧
    (sends (handleMessage CreateMessage c msg)).filter (fun x => x.1 = Queue.completion)
      = [(Queue.completion, (c.handle.Process msg).1)] ∧
    acks (handleMessage CreateMessage c msg)
      = (if (c.completion.Send (c.handle.Process msg).1).isNone then [(msg, false)] else []) ∧
    requeues (handleMessage CreateMessage c msg) = [] := by
  have hcls : (c.handle.Process msg).2.IsTrap = false ∧
      (c.handle.Process msg).2.IsRequeue = false := by
    rcases h with h | h
    · exact ⟨(allDone_excludes _ h).1, (allDone_excludes _ h).2.1⟩
    · exact ⟨(fatal_excludes _ h).1, (fatal_excludes _ h).2.1⟩
  refine ⟨hcls.1, hcls.2, handleMessage_completion_sends CreateMessage c msg h, ?_⟩
  rw [handleMessage_completion CreateMessage c msg h]
  unfold completionBranch reportFatal
  by_cases hf : (c.handle.Process msg).2.IsFatal = true
  · rcases hcm : CreateMessage (c.handle.Process msg).2 with ⟨m, _ | e⟩
    · cases hes : c.errors.Send m <;>
        cases hs : c.completion.Send (c.handle.Process msg).1 <;>
        simp [hf, hes, hs, acks, requeues, ackTail]
    · cases hs : c.completion.Send (c.handle.Process msg).1 <;>
        simp [hf, hs, acks, requeues, ackTail]
  · cases hs : c.completion.Send (c.handle.Process msg).1 <;>
      simp [hf, hs, acks, requeues, ackTail]

/-- Witness for C10: an all-done result whose completion send succeeds is sent once and
acked once; an all-done result whose completion send fails is sent once and not acked;
a fatal result whose completion send succeeds is sent once to completion and acked. -/
theorem completion_send_then_ack_witness :
    (sends (handleMessage sampleCreateMessage
        (sampleConsumer samplePub NewAllDoneResult none none) sampleDelivery)
      = [(Queue.completion, samplePub)] ∧
     acks (handleMessage sampleCreateMessage
        (sampleConsumer samplePub NewAllDoneResult none none) sampleDelivery)
      = [(sampleDelivery, false)]) ∧
    (sends (handleMessage sampleCreateMessage
        (sampleConsumer samplePub NewAllDoneResult (some ⟨"err"⟩) none) sampleDelivery)
      = [(Queue.completion, samplePub)] ∧
     acks (handleMessage sampleCreateMessage
        (sampleConsumer samplePub NewAllDoneResult (some ⟨"err"⟩) none) sampleDelivery)
      = []) ∧
    (sends (handleMessage sampleCreateMessage
        (sampleConsumer samplePub (NewFatalResult (GoValue.str "boom")) none none)
        sampleDelivery)
      = [(Queue.errors, ⟨"boom"⟩), (Queue.completion, samplePub)] ∧
     acks (handleMessage sampleCreateMessage
        (sampleConsumer samplePub (NewFatalResult (GoValue.str "boom")) none none)
        sampleDelivery)
      = [(sampleDelivery, false)]) := by
  have h1 := completion_send_then_ack sampleCreateMessage
    (sampleConsumer samplePub NewAllDoneResult none none) sampleDelivery (Or.inl rfl)
  have h2 := completion_send_then_ack sampleCreateMessage
    (sampleConsumer samplePub NewAllDoneResult (some ⟨"err"⟩) none) sampleDelivery
    (Or.inl rfl)
  have h3 := completion_send_then_ack sampleCreateMessage
    (sampleConsumer samplePub (NewFatalResult (GoValue.str "boom")) none none)
    sampleDelivery (Or.inr rfl)
  exact ⟨⟨by decide, h1.2.2.2.1⟩, ⟨by decide, h2.2.2.2.1⟩, ⟨by decide, h3.2.2.2.1⟩⟩

/-- The trace of `handleMessage` on a result that is neither a trap, nor a requeue, nor
all-done, nor fatal: only the acknowledgement tail. -/
theorem handleMessage_plain (CreateMessage : Result → Publishing × Option GoError)
    (c : consumer) (msg : Delivery)
    (ht : (c.handle.Process msg).2.IsTrap = false)
    (hq : (c.handle.Process msg).2.IsRequeue = false)
    (ha : (c.handle.Process msg).2.IsAllDone = false)
    (hf : (c.handle.Process msg).2.IsFatal = false) :
    handleMessage CreateMessage c msg
      = Event.process msg :: ackTail msg ++ [Event.release 1] := by
  simp [handleMessage, handleBody, ht, hq, ha, hf]

/-- The sends of `handleMessage` to the errors queue on an all-done or fatal result:
one, carrying what `CreateMessage` built, exactly when the result is fatal and
`CreateMessage` answered no error. -/
theorem handleMessage_errors_sends
    (CreateMessage : Result → Publishing × Option GoError) (c : consumer) (msg : Delivery)
    (h : (c.handle.Process msg).2.IsAllDone = true ∨ (c.handle.Process msg).2.IsFatal = true) :
    (sends (handleMessage CreateMessage c msg)).filter (fun x => x.1 = Queue.errors)
      = (if (c.handle.Process msg).2.IsFatal = true ∧
            (CreateMessage (c.handle.Process msg).2).2 = none
         then [(Queue.errors, (CreateMessage (c.handle.Process msg).2).1)] else []) := by
  rw [handleMessage_completion CreateMessage c msg h]
  unfold completionBranch reportFatal
  by_cases hf : (c.handle.Process msg).2.IsFatal = true
  · rcases hcm : CreateMessage (c.handle.Process msg).2 with ⟨m, _ | e⟩
    · cases hes : c.errors.Send m <;>
        cases hs : c.completion.Send (c.handle.Process msg).1 <;>
        simp [hf, hes, hs, sends, ackTail]
    · cases hs : c.completion.Send (c.handle.Process msg).1 <;>
        simp [hf, hs, sends, ackTail]
  · cases hs : c.completion.Send (c.handle.Process msg).1 <;>
      simp [hf, hs, sends, ackTail]

/-- The acks of `handleMessage` on an all-done or fatal result: one `Ack(false)` exactly
when the completion send answered no error. -/
theorem handleMessage_completion_acks
    (CreateMessage : Result → Publishing × Option GoError) (c : consumer) (msg : Delivery)
    (h : (c.handle.Process msg).2.IsAllDone = true ∨ (c.handle.Process msg).2.IsFatal = true) :
    acks (handleMessage CreateMessage c msg)
      = (if (c.completion.Send (c.handle.Process msg).1).isNone then [(msg, false)]
         else []) := by
  rw [handleMessage_completion CreateMessage c msg h]
  unfold completionBranch reportFatal
  by_cases hf : (c.handle.Process msg).2.IsFatal = true
  · rcases hcm : CreateMessage (c.handle.Process msg).2 with ⟨m, _ | e⟩
    · cases hes : c.errors.Send m <;>
        cases hs : c.completion.Send (c.handle.Process msg).1 <;>
        simp [hf, hes, hs, acks, ackTail]
    · cases hs : c.completion.Send (c.handle.Process msg).1 <;>
        simp [hf, hs, acks, ackTail]
  · cases hs : c.completion.Send (c.handle.Process msg).1 <;>
      simp [hf, hs, acks, ackTail]

/-- C11: for a fatal result, `errors.Send` is called exactly once, with the publishing
`CreateMessage` built, when `CreateMessage` answers no error, and not at all when it
answers one; in both cases and whatever `errors.Send` answers, `completion.Send(pub)` is
called once and the delivery is acked exactly when that send answers no error. For an
all-done result `errors.Send` is never called. -/
theorem fatal_reports_and_completes
    (CreateMessage : Result → Publishing × Option GoError) (c : consumer) (msg : Delivery) :
    ((c.handle.Process msg).2.IsFatal = true →
      (sends (handleMessage CreateMessage c msg)).filter (fun x => x.1 = Queue.errors)
        = (if (CreateMessage (c.handle.Process msg).2).2 = none
           then [(Queue.errors, (CreateMessage (c.handle.Process msg).2).1)] else []) ∧
      (sends (handleMessage CreateMessage c msg)).filter (fun x => x.1 = Queue.completion)
        = [(Queue.completion, (c.handle.Process msg).1)] ∧
      acks (handleMessage CreateMessage c msg)
        = (if (c.completion.Send (c.handle.Process msg).1).isNone then [(msg, false)]
           else [])) ∧
    ((c.handle.Process msg).2.IsAllDone = true →
      (sends (handleMessage CreateMessage c msg)).filter (fun x => x.1 = Queue.errors)
        = []) := by
  constructor
  · intro hf
    refine ⟨?_, handleMessage_completion_sends CreateMessage c msg (Or.inr hf),
      handleMessage_completion_acks CreateMessage c msg (Or.inr hf)⟩
    rw [handleMessage_errors_sends CreateMessage c msg (Or.inr hf)]
    simp [hf]
  · intro ha
    rw [handleMessage_errors_sends CreateMessage c msg (Or.inl ha)]
    simp [(allDone_excludes _ ha).2.2]

/-- Witness for C11: a fatal result with a working `CreateMessage` and a failing errors
queue is reported once, completed once and acked; with a failing `CreateMessage` it is
not reported, yet completed and acked; an all-done result is never reported. -/
theorem fatal_reports_and_completes_witness :
    (sends (handleMessage sampleCreateMessage
        (sampleConsumerErrorsDown samplePub (NewFatalResult (GoValue.str "boom")) none none)
        sampleDelivery) = [(Queue.errors, ⟨"boom"⟩), (Queue.completion, samplePub)] ∧
     acks (handleMessage sampleCreateMessage
        (sampleConsumerErrorsDown samplePub (NewFatalResult (GoValue.str "boom")) none none)
        sampleDelivery) = [(sampleDelivery, false)]) ∧
    (sends (handleMessage failingCreateMessage
        (sampleConsumer samplePub (NewFatalResult (GoValue.str "boom")) none none)
        sampleDelivery) = [(Queue.completion, samplePub)] ∧
     acks (handleMessage failingCreateMessage
        (sampleConsumer samplePub (NewFatalResult (GoValue.str "boom")) none none)
        sampleDelivery) = [(sampleDelivery, false)]) ∧
    (sends (handleMessage sampleCreateMessage
        (sampleConsumer samplePub NewAllDoneResult none none) sampleDelivery)).filter
      (fun x => x.1 = Queue.errors) = [] := by
  have h1 := (fatal_reports_and_completes sampleCreateMessage
    (sampleConsumerErrorsDown samplePub (NewFatalResult (GoValue.str "boom")) none none)
    sampleDelivery).1 rfl
  have h2 := (fatal_reports_and_completes failingCreateMessage
    (sampleConsumer samplePub (NewFatalResult (GoValue.str "boom")) none none)
    sampleDelivery).1 rfl
  have h3 := (fatal_reports_and_completes sampleCreateMessage
    (sampleConsumer samplePub NewAllDoneResult none none) sampleDelivery).2 rfl
  exact ⟨⟨by decide, h1.2.2⟩, ⟨by decide, h2.2.2⟩, h3⟩

/-- The acks of `handleMessage` on every path: none on the requeue path and on the
completion-send-failure path, one `Ack(false)` otherwise. -/
theorem handleMessage_acks (CreateMessage : Result → Publishing × Option GoError)
    (c : consumer) (msg : Delivery) :
    acks (handleMessage CreateMessage c msg)
      = (if requeuePath (c.handle.Process msg).2 = true ∨
            sendFailurePath c (c.handle.Process msg).1 (c.handle.Process msg).2 = true
         then [] else [(msg, false)]) := by
  by_cases ht : (c.handle.Process msg).2.IsTrap = true
  · simp [handleMessage, handleBody, ht, trapBranch, acks, requeuePath, sendFailurePath]
  · have ht : (c.handle.Process msg).2.IsTrap = false := by simpa using ht
    by_cases hq : (c.handle.Process msg).2.IsRequeue = true
    · cases hr : c.cmds.Requeue msg (c.handle.Process msg).1 <;>
        simp [handleMessage, handleBody, ht, hq, requeueBranch, hr, acks, requeuePath]
    · have hq : (c.handle.Process msg).2.IsRequeue = false := by simpa using hq
      by_cases hd : (c.handle.Process msg).2.IsAllDone = true ∨
          (c.handle.Process msg).2.IsFatal = true
      · rw [handleMessage_completion_acks CreateMessage c msg hd]
        have hd2 : ((c.handle.Process msg).2.IsAllDone ||
            (c.handle.Process msg).2.IsFatal) = true := by
          rcases hd with h | h <;> simp [h]
        cases hs : c.completion.Send (c.handle.Process msg).1 <;>
          simp [requeuePath, sendFailurePath, ht, hq, hd2, hs]
      · have ha : (c.handle.Process msg).2.IsAllDone = false := by
          cases h : (c.handle.Process msg).2.IsAllDone <;> simp_all
        have hf : (c.handle.Process msg).2.IsFatal = false := by
          cases h : (c.handle.Process msg).2.IsFatal <;> simp_all
        rw [handleMessage_plain CreateMessage c msg ht hq ha hf]
        simp [ackTail, acks, requeuePath, sendFailurePath, ht, hq, ha, hf]

/-- C12: for every delivery, result and answers of the broker, `handleMessage` calls
`Ack` zero times on the requeue path and on the completion-send-failure path, and
exactly once, with `multiple = false`, on every other path; so no ack has
`multiple = true`. -/
theorem ack_once_except_requeue_and_send_failure
    (CreateMessage : Result → Publishing × Option GoError) (c : consumer) (msg : Delivery) :
    acks (handleMessage CreateMessage c msg)
      = (if requeuePath (c.handle.Process msg).2 = true ∨
            sendFailurePath c (c.handle.Process msg).1 (c.handle.Process msg).2 = true
         then [] else [(msg, false)]) ∧
    ∀ x ∈ acks (handleMessage CreateMessage c msg), x = (msg, false) := by
  have key := handleMessage_acks CreateMessage c msg
  refine ⟨key, ?_⟩
  intro x hx
  rw [key] at hx
  split at hx <;> simp_all

/-- Witness for C12: a plain success is acked once with `multiple = false`; a requeue
and a failed completion send are not acked. -/
theorem ack_once_except_requeue_and_send_failure_witness :
    acks (handleMessage sampleCreateMessage
      (sampleConsumer samplePub NewSuccessResult none none) sampleDelivery)
        = [(sampleDelivery, false)] ∧
    acks (handleMessage sampleCreateMessage
      (sampleConsumer samplePub NewRequeueResult none none) sampleDelivery) = [] ∧
    acks (handleMessage sampleCreateMessage
      (sampleConsumer samplePub NewAllDoneResult (some ⟨"err"⟩) none) sampleDelivery)
        = [] :=
  ⟨(ack_once_except_requeue_and_send_failure sampleCreateMessage
      (sampleConsumer samplePub NewSuccessResult none none) sampleDelivery).1,
   (ack_once_except_requeue_and_send_failure sampleCreateMessage
      (sampleConsumer samplePub NewRequeueResult none none) sampleDelivery).1,
   (ack_once_except_requeue_and_send_failure sampleCreateMessage
      (sampleConsumer samplePub NewAllDoneResult (some ⟨"err"⟩) none) sampleDelivery).1⟩

/-- C17: for every delivery whose result is a plain success (no error, tag Success),
`handleMessage` calls `Ack(false)` exactly once and makes no `Send` on any queue and no
`Requeue`. -/
theorem success_acks_only (CreateMessage : Result → Publishing × Option GoError)
    (c : consumer) (msg : Delivery)
    (he : (c.handle.Process msg).2.Error = none)
    (hs : (c.handle.Process msg).2.Typ = SuccessType) :
    acks (handleMessage CreateMessage c msg) = [(msg, false)] ∧
    sends (handleMessage CreateMessage c msg) = [] ∧
    requeues (handleMessage CreateMessage c msg) = [] := by
  have ht : (c.handle.Process msg).2.IsTrap = false := by
    simp [Result.IsTrap, hs, SuccessType, TooSoonType]
  have hq : (c.handle.Process msg).2.IsRequeue = false := by
    simp [Result.IsRequeue, Result.IsSuccess, he, hs, SuccessType, RequeueType]
  have ha : (c.handle.Process msg).2.IsAllDone = false := by
    simp [Result.IsAllDone, hs, SuccessType, AllDoneType]
  have hf : (c.handle.Process msg).2.IsFatal = false := by
    simp [Result.IsFatal, he]
  rw [handleMessage_plain CreateMessage c msg ht hq ha hf]
  simp [ackTail, acks, sends, requeues]

/-- Witness for C17: the result of `NewSuccessResult` is acked once, with nothing sent
and nothing requeued. -/
theorem success_acks_only_witness :
    acks (handleMessage sampleCreateMessage
      (sampleConsumer samplePub NewSuccessResult none none) sampleDelivery)
        = [(sampleDelivery, false)] ∧
    sends (handleMessage sampleCreateMessage
      (sampleConsumer samplePub NewSuccessResult none none) sampleDelivery) = [] ∧
    requeues (handleMessage sampleCreateMessage
      (sampleConsumer samplePub NewSuccessResult none none) sampleDelivery) = [] :=
  success_acks_only sampleCreateMessage
    (sampleConsumer samplePub NewSuccessResult none none) sampleDelivery rfl rfl

/-- C18: evaluation of the code. `GetParams("ethereum")` equals `GetParams("geth")`, but
`GetDefaults("ethereum")` is the geth `params.json`, whereas `GetDefaults("geth")` is the
geth `defaults.json`; on a store where the two documents differ the two calls differ. -/
theorem GetDefaults_ethereum_returns_params :
    (∀ cfg : String → String → String × Option GoError,
      GetParams cfg "ethereum" = GetParams cfg "geth" ∧
      GetParams cfg "geth" = cfg "geth" "params.json" ∧
      GetDefaults cfg "ethereum" = cfg "geth" "params.json" ∧
      GetDefaults cfg "geth" = cfg "geth" "defaults.json") ∧
    GetDefaults sampleStaticConfig "ethereum" = ("[[\"gasLimit\",\"int\"]]", none) ∧
    GetDefaults sampleStaticConfig "geth" = ("[\"gasLimit\",4000000]", none) ∧
    GetDefaults sampleStaticConfig "ethereum" ≠ GetDefaults sampleStaticConfig "geth" := by
  have hg : ∀ cfg : String → String → String × Option GoError,
      GetParams cfg "geth" = cfg "geth" "params.json" := by
    intro cfg
    rw [GetParams]
    simp
  have he : ∀ cfg : String → String → String × Option GoError,
      GetParams cfg "ethereum" = GetParams cfg "geth" := by
    intro cfg
    conv_lhs => rw [GetParams]
    simp
  have hd : ∀ cfg : String → String → String × Option GoError,
      GetDefaults cfg "ethereum" = cfg "geth" "params.json" := by
    intro cfg
    simp [GetDefaults, hg]
  have hdg : ∀ cfg : String → String → String × Option GoError,
      GetDefaults cfg "geth" = cfg "geth" "defaults.json" := by
    intro cfg
    simp [GetDefaults]
  refine ⟨fun cfg => ⟨he cfg, hg cfg, hd cfg, hdg cfg⟩, ?_, ?_, ?_⟩
  · rw [hd]; simp [sampleStaticConfig]
  · rw [hdg]; simp [sampleStaticConfig]
  · rw [hd, hdg]; simp [sampleStaticConfig]

/-- C19: for every result the dispatch predicates are consistent: all-done and fatal
exclude each other, requeue excludes both, all-done implies success, an error makes
exactly one of fatal and requeue hold; so the requeue test and the completion test of
`handleMessage` never both succeed, and no run both requeues and sends to completion. -/
theorem predicates_consistent (r : Result) :
    ¬ (r.IsAllDone = true ∧ r.IsFatal = true) ∧
    ¬ (r.IsRequeue = true ∧ r.IsAllDone = true) ∧
    ¬ (r.IsRequeue = true ∧ r.IsFatal = true) ∧
    (r.IsAllDone = true → r.IsSuccess = true) ∧
    (r.Error.isSome = true →
      (r.IsFatal = true ∧ r.IsRequeue = false) ∨ (r.IsFatal = false ∧ r.IsRequeue = true)) ∧
    ¬ (r.IsRequeue = true ∧ (r.IsAllDone || r.IsFatal) = true) ∧
    ∀ (CreateMessage : Result → Publishing × Option GoError) (c : consumer) (msg : Delivery),
      (c.handle.Process msg).2 = r →
      requeues (handleMessage CreateMessage c msg) = [] ∨
      (sends (handleMessage CreateMessage c msg)).filter
        (fun x => x.1 = Queue.completion) = [] := by
  have hcore : ¬ (r.IsAllDone = true ∧ r.IsFatal = true) ∧
      ¬ (r.IsRequeue = true ∧ r.IsAllDone = true) ∧
      ¬ (r.IsRequeue = true ∧ r.IsFatal = true) ∧
      (r.IsAllDone = true → r.IsSuccess = true) ∧
      (r.Error.isSome = true →
        (r.IsFatal = true ∧ r.IsRequeue = false) ∨
        (r.IsFatal = false ∧ r.IsRequeue = true)) := by
    obtain ⟨e, t, m⟩ := r
    cases e <;> by_cases h4 : t = FatalType <;> by_cases h6 : t = RequeueType <;>
      simp_all [Result.IsAllDone, Result.IsRequeue, Result.IsFatal, Result.IsSuccess,
        AllDoneType, RequeueType, FatalType]
  obtain ⟨h1, h2, h3, h4, h5⟩ := hcore
  refine ⟨h1, h2, h3, h4, h5, ?_, ?_⟩
  · intro h
    rcases h with ⟨hq, hd⟩
    cases ha : r.IsAllDone
    · cases hf : r.IsFatal
      · simp [ha, hf] at hd
      · exact h3 ⟨hq, hf⟩
    · exact h2 ⟨hq, ha⟩
  · intro CreateMessage c msg hp
    by_cases ht : (c.handle.Process msg).2.IsTrap = true
    · left
      simp [handleMessage, handleBody, ht, trapBranch, requeues]
    · have ht : (c.handle.Process msg).2.IsTrap = false := by simpa using ht
      by_cases hq : (c.handle.Process msg).2.IsRequeue = true
      · right
        cases hr : c.cmds.Requeue msg (c.handle.Process msg).1 <;>
          simp [handleMessage, handleBody, ht, hq, requeueBranch, hr, sends]
      · have hq : (c.handle.Process msg).2.IsRequeue = false := by simpa using hq
        left
        by_cases hd : (c.handle.Process msg).2.IsAllDone = true ∨
            (c.handle.Process msg).2.IsFatal = true
        · rw [handleMessage_completion CreateMessage c msg hd]
          unfold completionBranch reportFatal
          by_cases hf : (c.handle.Process msg).2.IsFatal = true
          · rcases hcm : CreateMessage (c.handle.Process msg).2 with ⟨m, _ | e⟩
            · cases hes : c.errors.Send m <;>
                cases hs : c.completion.Send (c.handle.Process msg).1 <;>
                simp [hf, hes, hs, requeues, ackTail]
            · cases hs : c.completion.Send (c.handle.Process msg).1 <;>
                simp [hf, hs, requeues, ackTail]
          · cases hs : c.completion.Send (c.handle.Process msg).1 <;>
              simp [hf, hs, requeues, ackTail]
        · have ha : (c.handle.Process msg).2.IsAllDone = false := by
            cases h : (c.handle.Process msg).2.IsAllDone <;> simp_all
          have hf : (c.handle.Process msg).2.IsFatal = false := by
            cases h : (c.handle.Process msg).2.IsFatal <;> simp_all
          rw [handleMessage_plain CreateMessage c msg ht hq ha hf]
          simp [ackTail, requeues]

/-- Witness for C19: on a result with an error and the Success tag, requeue holds and
fatal does not; the run requeues and sends nothing to the completion queue. -/
theorem predicates_consistent_witness :
    ((successWithError.IsFatal = true ∧ successWithError.IsRequeue = false) ∨
      (successWithError.IsFatal = false ∧ successWithError.IsRequeue = true)) ∧
    (requeues (handleMessage sampleCreateMessage
        (sampleConsumer samplePub successWithError none none) sampleDelivery) = [] ∨
     (sends (handleMessage sampleCreateMessage
        (sampleConsumer samplePub successWithError none none) sampleDelivery)).filter
        (fun x => x.1 = Queue.completion) = []) :=
  ⟨(predicates_consistent successWithError).2.2.2.2.1 rfl,
   (predicates_consistent successWithError).2.2.2.2.2.2 sampleCreateMessage
      (sampleConsumer samplePub successWithError none none) sampleDelivery rfl⟩

/-- The processed deliveries of a concatenation. -/
theorem processed_append (a b : List Event) :
    processed (a ++ b) = processed a ++ processed b := by
  simp [processed, List.filterMap_append]

/-- The acquisitions of a concatenation. -/
theorem acquires_append (a b : List Event) :
    acquires (a ++ b) = acquires a ++ acquires b := by
  simp [acquires, List.filterMap_append]

/-- The body of `handleMessage` releases nothing, acquires nothing, and calls
`Process` once, on its delivery. -/
theorem handleBody_projections (CreateMessage : Result → Publishing × Option GoError)
    (c : consumer) (msg : Delivery) :
    releases (handleBody CreateMessage c msg) = [] ∧
    acquires (handleBody CreateMessage c msg) = [] ∧
    processed (handleBody CreateMessage c msg) = [msg] := by
  unfold handleBody trapBranch requeueBranch completionBranch reportFatal ackTail
  by_cases ht : (c.handle.Process msg).2.IsTrap = true
  · simp [ht, releases, acquires, processed]
  · by_cases hq : (c.handle.Process msg).2.IsRequeue = true
    · cases hr : c.cmds.Requeue msg (c.handle.Process msg).1 <;>
        simp [ht, hq, hr, releases, acquires, processed]
    · by_cases hf : (c.handle.Process msg).2.IsFatal = true
      · rcases hcm : CreateMessage (c.handle.Process msg).2 with ⟨m, _ | e⟩
        · cases hes : c.errors.Send m <;>
            cases hs : c.completion.Send (c.handle.Process msg).1 <;>
            simp [ht, hq, hf, hcm, hes, hs, releases, acquires, processed]
        · cases hs : c.completion.Send (c.handle.Process msg).1 <;>
            simp [ht, hq, hf, hcm, hs, releases, acquires, processed]
      · by_cases ha : (c.handle.Process msg).2.IsAllDone = true
        · cases hs : c.completion.Send (c.handle.Process msg).1 <;>
            simp [ht, hq, hf, ha, hs, releases, acquires, processed]
        · simp [ht, hq, hf, ha, releases, acquires, processed]

/-- Every run of `handleMessage` releases exactly one permit, acquires none, and calls
`Process` once, on its delivery. -/
theorem handleMessage_projections (CreateMessage : Result → Publishing × Option GoError)
    (c : consumer) (msg : Delivery) :
    releases (handleMessage CreateMessage c msg) = [1] ∧
    acquires (handleMessage CreateMessage c msg) = [] ∧
    processed (handleMessage CreateMessage c msg) = [msg] := by
  obtain ⟨h1, h2, h3⟩ := handleBody_projections CreateMessage c msg
  unfold handleMessage
  rw [releases_append, acquires_append, processed_append, h1, h2, h3]
  simp [releases, acquires, processed]

/-- A list with an entry at position `i` splits around that entry, and so does the
list with that entry replaced. -/
theorem split_at_index {α : Type} (l : List α) (i : Nat) (x y : α) (h : l[i]? = some x) :
    ∃ pre post, l = pre ++ x :: post ∧ l.set i y = pre ++ y :: post := by
  obtain ⟨hlt, hx⟩ := List.getElem?_eq_some_iff.mp h
  refine ⟨l.take i, l.drop (i + 1), ?_, ?_⟩
  · rw [← hx, List.getElem_cons_drop, List.take_append_drop]
  · rw [List.set_eq_take_append_cons_drop]
    simp [hlt]

/-- What a worker step does: it moves the head event of one worker to the trace and,
when that event is a release, gives the permits back. -/
theorem stepWorker_inv (i : Nat) (s s1 : LoopState) (h : stepWorker i s = some s1) :
    ∃ pre post e rest, s.workers = pre ++ (e :: rest) :: post ∧
      s1.workers = pre ++ rest :: post ∧ s1.trace = s.trace ++ [e] ∧
      s1.pc = s.pc ∧ s1.stream = s.stream ∧ s1.started = s.started ∧
      ((∃ k, e = Event.release k ∧ s.sem.Release k = some s1.sem) ∨
       (releases [e] = [] ∧ s1.sem = s.sem)) := by
  unfold stepWorker at h
  cases hw : s.workers[i]? with
  | none => simp [hw] at h
  | some w =>
    cases w with
    | nil => simp [hw] at h
    | cons e rest =>
      obtain ⟨pre, post, h1, h2⟩ := split_at_index s.workers i (e :: rest) rest hw
      refine ⟨pre, post, e, rest, h1, ?_⟩
      cases e <;> simp [hw] at h
      case release k =>
        cases hr : s.sem.Release k with
        | none => simp [hr] at h
        | some sem =>
          simp [hr] at h
          subst h
          exact ⟨h2, rfl, rfl, rfl, rfl, Or.inl ⟨k, rfl, hr⟩⟩
      all_goals
        subst h
        exact ⟨h2, rfl, rfl, rfl, rfl, Or.inr ⟨by simp [releases], rfl⟩⟩

/-- What a loop step does: it receives a delivery, or returns on a closed stream, or
takes one permit and starts the worker of the received delivery. -/
theorem stepLoop_inv (CreateMessage : Result → Publishing × Option GoError) (c : consumer)
    (s s1 : LoopState) (h : stepLoop CreateMessage c s = some s1) :
    (∃ d rest, s.pc = LoopPc.ranging ∧ s.stream = d :: rest ∧
      s1 = { s with pc := LoopPc.acquiring d, stream := rest,
                    trace := s.trace ++ [Event.log Level.info "received a message"] }) ∨
    (s.pc = LoopPc.ranging ∧ s.stream = [] ∧ s1 = { s with pc := LoopPc.done }) ∨
    (∃ d, s.pc = LoopPc.acquiring d ∧ s.sem.size - s.sem.cur ≥ 1 ∧
      s1 = { s with pc := LoopPc.ranging, sem := { s.sem with cur := s.sem.cur + 1 },
                    started := s.started ++ [d],
                    workers := s.workers ++ [handleMessage CreateMessage c d],
                    trace := s.trace ++ [Event.acquire 1] }) := by
  unfold stepLoop at h
  cases hpc : s.pc with
  | ranging =>
    cases hst : s.stream with
    | nil =>
      simp [hpc, hst] at h
      exact Or.inr (Or.inl ⟨rfl, rfl, h.symm⟩)
    | cons d rest =>
      simp [hpc, hst] at h
      exact Or.inl ⟨d, rest, rfl, rfl, h.symm⟩
  | acquiring d =>
    simp only [hpc] at h
    by_cases hg : s.sem.size - s.sem.cur ≥ 1
    · simp [Weighted.Acquire, hg] at h
      exact Or.inr (Or.inr ⟨d, rfl, hg, h.symm⟩)
    · simp [Weighted.Acquire, hg] at h
  | done => simp [hpc] at h
  | exited => simp [hpc] at h

/-- The releases of a list with a head event. -/
theorem releases_cons (e : Event) (t : List Event) :
    releases (e :: t) = releases [e] ++ releases t :=
  releases_append [e] t

/-- The acquisitions of a list with a head event. -/
theorem acquires_cons (e : Event) (t : List Event) :
    acquires (e :: t) = acquires [e] ++ acquires t :=
  acquires_append [e] t

/-- The processed deliveries of a list with a head event. -/
theorem processed_cons (e : Event) (t : List Event) :
    processed (e :: t) = processed [e] ++ processed t :=
  processed_append [e] t

/-- The events of a fresh worker are well formed. -/
theorem WorkerOk_handleMessage (CreateMessage : Result → Publishing × Option GoError)
    (c : consumer) (msg : Delivery) : WorkerOk (handleMessage CreateMessage c msg) := by
  obtain ⟨h1, h2, -⟩ := handleMessage_projections CreateMessage c msg
  exact ⟨Or.inr h1, h2⟩

/-- A well-formed worker whose next event is a release: it releases one permit, and
nothing afterwards. -/
theorem WorkerOk_release (k : Int) (rest : List Event)
    (h : WorkerOk (Event.release k :: rest)) :
    k = 1 ∧ releases rest = [] ∧ WorkerOk rest := by
  obtain ⟨h1, h2⟩ := h
  have hr : releases (Event.release k :: rest) = k :: releases rest := by
    simp [releases]
  have ha : acquires (Event.release k :: rest) = acquires rest := by
    simp [acquires]
  rw [hr] at h1
  rw [ha] at h2
  rcases h1 with h1 | h1
  · simp at h1
  · simp at h1
    exact ⟨h1.1, h1.2, Or.inl h1.2, h2⟩

/-- A well-formed worker whose next event is not a release stays well formed, with the
same releases, and that event is no acquire. -/
theorem WorkerOk_other (e : Event) (rest : List Event) (he : releases [e] = [])
    (h : WorkerOk (e :: rest)) :
    releases (e :: rest) = releases rest ∧ acquires [e] = [] ∧ WorkerOk rest := by
  obtain ⟨h1, h2⟩ := h
  have hr : releases (e :: rest) = releases rest := by
    rw [releases_cons, he]; rfl
  rw [acquires_cons] at h2
  have h3 := List.append_eq_nil.mp h2
  rw [hr] at h1
  exact ⟨hr, h3.1, h1, h3.2⟩

/-- The permit invariant holds when the loop is entered on a fresh semaphore. -/
theorem PermitsInv_entry (n : Int) (c : consumer) (hn : 0 ≤ n)
    (hs : c.sem = { size := n, cur := 0 }) : PermitsInv n (loopEntry c) := by
  unfold loopEntry
  rcases hc : c.cmds.Consume with ⟨msgs, _ | e⟩ <;>
    simp [PermitsInv, hs, inFlight, acquires, hn]

/-- The permit invariant is kept by every step. -/
theorem PermitsInv_step (CreateMessage : Result → Publishing × Option GoError)
    (c : consumer) (n : Int) (ch : Choice) (s s1 : LoopState)
    (hinv : PermitsInv n s) (h : step CreateMessage c ch s = some s1) :
    PermitsInv n s1 := by
  obtain ⟨hsize, hcur, hle, hok, hlen, hacq, hex⟩ := hinv
  cases ch with
  | loop =>
    rcases stepLoop_inv CreateMessage c s s1 h with
      ⟨d, rest, -, -, rfl⟩ | ⟨-, -, rfl⟩ | ⟨d, -, hg, rfl⟩
    · refine ⟨hsize, hcur, hle, hok, hlen, ?_, ?_⟩
      · simp only [acquires_append, hacq]
        simp [acquires]
      · intro hp; simp at hp
    · exact ⟨hsize, hcur, hle, hok, hlen, hacq, by intro hp; simp at hp⟩
    · obtain ⟨hr, -, -⟩ := handleMessage_projections CreateMessage c d
      refine ⟨hsize, ?_, ?_, ?_, ?_, ?_, ?_⟩
      · simp only [inFlight, List.countP_append] at hcur ⊢
        simp [hr, hcur]
      · simp only; omega
      · intro w hw
        rcases List.mem_append.mp hw with hw | hw
        · exact hok w hw
        · simp at hw
          rw [hw]
          exact WorkerOk_handleMessage CreateMessage c d
      · simp [hlen]
      · simp only [acquires_append, hacq, List.length_append, List.length_singleton,
          List.replicate_succ']
        simp [acquires]
      · intro hp; simp at hp
  | worker i =>
    obtain ⟨pre, post, e, rest, hw, hw1, htr, hpc, -, hst, hcase⟩ := stepWorker_inv i s s1 h
    have hokw : WorkerOk (e :: rest) := hok _ (by rw [hw]; simp)
    have hok1 : ∀ r, WorkerOk r → ∀ w ∈ pre ++ r :: post, WorkerOk w := by
      intro r hr w hmem
      rcases List.mem_append.mp hmem with hm | hm
      · exact hok w (by rw [hw]; exact List.mem_append.mpr (Or.inl hm))
      · rcases List.mem_cons.mp hm with hm | hm
        · rw [hm]; exact hr
        · exact hok w (by rw [hw]; exact List.mem_append.mpr (Or.inr (List.mem_cons_of_mem _ hm)))
    have hex1 : s1.pc = LoopPc.exited → s1.workers = [] := by
      intro hp
      rw [hpc] at hp
      have := hex hp
      rw [hw] at this
      simp at this
    rcases hcase with ⟨k, rfl, hrel⟩ | ⟨hnr, hsem⟩
    · obtain ⟨hk, hrest, hokr⟩ := WorkerOk_release k rest hokw
      subst hk
      have hrel1 : s.sem.cur - 1 ≥ 0 ∧ s1.sem = { s.sem with cur := s.sem.cur - 1 } := by
        unfold Weighted.Release at hrel
        by_cases hneg : s.sem.cur - 1 < 0
        · simp [hneg] at hrel
        · simp [hneg] at hrel
          exact ⟨by omega, hrel.symm⟩
      have hp1 : decide (releases (Event.release 1 :: rest) ≠ []) = true := by
        rw [releases_cons]; simp [releases]
      have hp2 : decide (releases rest ≠ []) = false := by
        simp [hrest]
      have hfl : (inFlight s : Int) = inFlight s1 + 1 := by
        simp only [inFlight, hw, hw1, List.countP_append, List.countP_cons, hp1, hp2]
        simp
        omega
      refine ⟨?_, ?_, ?_, ?_, ?_, ?_, hex1⟩
      · rw [hrel1.2]; exact hsize
      · rw [hrel1.2]; simp only; omega
      · rw [hrel1.2]; simp only; omega
      · rw [hw1]; exact hok1 rest hokr
      · rw [hw1, hst, ← hlen, hw]; simp
      · rw [htr, hst, acquires_append, hacq]; simp [acquires]
    · obtain ⟨hrr, hae, hokr⟩ := WorkerOk_other e rest hnr hokw
      have hfl : inFlight s1 = inFlight s := by
        simp only [inFlight, hw, hw1, List.countP_append, List.countP_cons, hrr]
      refine ⟨?_, ?_, ?_, ?_, ?_, ?_, hex1⟩
      · rw [hsem]; exact hsize
      · rw [hsem, hfl]; exact hcur
      · rw [hsem]; exact hle
      · rw [hw1]; exact hok1 rest hokr
      · rw [hw1, hst, ← hlen, hw]; simp
      · rw [htr, hst, acquires_append, hacq, hae]; simp

/-- The permit invariant holds in every state a schedule reaches. -/
theorem PermitsInv_run (CreateMessage : Result → Publishing × Option GoError)
    (c : consumer) (n : Int) (sched : List Choice) :
    ∀ s s1 : LoopState, PermitsInv n s → run CreateMessage c sched s = some s1 →
      PermitsInv n s1 := by
  induction sched with
  | nil =>
    intro s s1 hinv h
    simp [run] at h
    rw [← h]; exact hinv
  | cons ch rest ih =>
    intro s s1 hinv h
    simp only [run] at h
    cases hs : step CreateMessage c ch s with
    | none => simp [hs] at h
    | some s2 =>
      simp only [hs] at h
      exact ih s2 s1 (PermitsInv_step CreateMessage c n ch s s2 hinv hs) h

/-- What a controller returned by `NewCommandController` is: built with a concurrency of
at least one, over the given collaborators, with a free semaphore of that capacity. -/
theorem NewCommandController_some (n : Int) (cmds errors completion : AMQPService)
    (handle : DeliveryHandler) (log : Logger) (c : consumer)
    (hc : (NewCommandController n cmds errors completion handle log).1 = some c) :
    1 ≤ n ∧ c.sem = { size := n, cur := 0 } ∧ c.once.done = false ∧
    c.cmds.Consume = cmds.Consume := by
  unfold NewCommandController at hc
  by_cases hlt : n < 1
  · simp [hlt] at hc
  · simp [hlt] at hc
    subst hc
    exact ⟨by omega, rfl, rfl, rfl⟩

/-- In a finished state no worker is in flight. -/
theorem inFlight_finished (s : LoopState) (h : finished s = true) : inFlight s = 0 := by
  unfold finished at h
  simp only [Bool.and_eq_true, List.all_eq_true] at h
  unfold inFlight
  rw [List.countP_eq_zero]
  intro w hw
  have := h.2 w hw
  have hw0 : w = [] := by simpa using this
  simp [hw0, releases]

/-- C13: `handleMessage` releases exactly one permit on every exit path, as its last
event, and acks at most once. In every state a schedule reaches from the entry of the
loop of a built controller, one permit was acquired per started worker, the permits held
are the workers that have not yet released, and once the loop has returned and every
worker has finished no permit is held. -/
theorem permits_acquired_and_released
    (CreateMessage : Result → Publishing × Option GoError) (n : Int)
    (cmds errors completion : AMQPService) (handle : DeliveryHandler) (log : Logger)
    (c : consumer)
    (hc : (NewCommandController n cmds errors completion handle log).1 = some c) :
    (∀ msg : Delivery,
      releases (handleMessage CreateMessage c msg) = [1] ∧
      (handleMessage CreateMessage c msg).getLast? = some (Event.release 1) ∧
      (acks (handleMessage CreateMessage c msg)).length ≤ 1) ∧
    ∀ (sched : List Choice) (s : LoopState),
      run CreateMessage c sched (loopEntry c) = some s →
      acquires s.trace = List.replicate s.started.length 1 ∧
      s.workers.length = s.started.length ∧
      s.sem.cur = (inFlight s : Int) ∧
      (finished s = true → s.sem.cur = 0) := by
  obtain ⟨hn, hsem, -, -⟩ := NewCommandController_some n cmds errors completion handle log c hc
  constructor
  · intro msg
    refine ⟨(handleMessage_projections CreateMessage c msg).1, ?_, ?_⟩
    · simp [handleMessage]
    · rw [handleMessage_acks]
      split <;> simp
  · intro sched s hrun
    have hinv := PermitsInv_run CreateMessage c n sched (loopEntry c) s
      (PermitsInv_entry n c (by omega) hsem) hrun
    obtain ⟨-, hcur, -, -, hlen, hacq, -⟩ := hinv
    refine ⟨hacq, hlen, hcur, ?_⟩
    intro hfin
    rw [hcur, inFlight_finished s hfin]
    rfl

/-- Witness for C13: with one permit and two deliveries, the sequential schedule reaches
a finished state in which no permit is held and two permits were acquired in all. -/
theorem permits_acquired_and_released_witness :
    ∃ s, run sampleCreateMessage twoDeliveries sequentialSchedule (loopEntry twoDeliveries)
        = some s ∧
      finished s = true ∧ s.sem.cur = 0 ∧ acquires s.trace = [1, 1] := by
  have hsome : (run sampleCreateMessage twoDeliveries sequentialSchedule
      (loopEntry twoDeliveries)).isSome = true := by decide
  obtain ⟨s, hs⟩ := Option.isSome_iff_exists.mp hsome
  have hfin : (run sampleCreateMessage twoDeliveries sequentialSchedule
      (loopEntry twoDeliveries)).map finished = some true := by decide
  have hst : (run sampleCreateMessage twoDeliveries sequentialSchedule
      (loopEntry twoDeliveries)).map (fun s => s.started.length) = some 2 := by decide
  rw [hs] at hfin hst
  simp only [Option.map_some', Option.some.injEq] at hfin hst
  have h := (permits_acquired_and_released sampleCreateMessage 1
    (streamQueue [sampleDelivery, sampleDelivery2]) (sampleQueue none none none)
    (sampleQueue none none none) (constHandler samplePub NewSuccessResult) Logger.mk
    twoDeliveries rfl).2 sequentialSchedule s hs
  refine ⟨s, hs, hfin, h.2.2.2 hfin, ?_⟩
  rw [h.1, hst]
  rfl

/-- C14: in every state a schedule reaches from the entry of the loop of a controller
built with concurrency `n` (which is then at least one), the workers admitted and not
yet released are at most `n`, they are the permits held, and while `n` of them are in
flight the loop cannot admit the delivery it is holding. -/
theorem in_flight_bounded
    (CreateMessage : Result → Publishing × Option GoError) (n : Int)
    (cmds errors completion : AMQPService) (handle : DeliveryHandler) (log : Logger)
    (c : consumer)
    (hc : (NewCommandController n cmds errors completion handle log).1 = some c) :
    1 ≤ n ∧
    ∀ (sched : List Choice) (s : LoopState),
      run CreateMessage c sched (loopEntry c) = some s →
      (inFlight s : Int) ≤ n ∧ s.sem.cur = (inFlight s : Int) ∧ s.sem.size = n ∧
      (∀ d, s.pc = LoopPc.acquiring d → (inFlight s : Int) = n →
        stepLoop CreateMessage c s = none) := by
  obtain ⟨hn, hsem, -, -⟩ := NewCommandController_some n cmds errors completion handle log c hc
  refine ⟨hn, ?_⟩
  intro sched s hrun
  have hinv := PermitsInv_run CreateMessage c n sched (loopEntry c) s
    (PermitsInv_entry n c (by omega) hsem) hrun
  obtain ⟨hsize, hcur, hle, -, -, -, -⟩ := hinv
  refine ⟨by omega, hcur, hsize, ?_⟩
  intro d hpc hfull
  have hg : ¬ (s.sem.size - s.sem.cur ≥ 1) := by omega
  simp [stepLoop, hpc, Weighted.Acquire, hg]

/-- Witness for C14: with one permit and two deliveries, after the first is admitted and
the second received, one worker is in flight, which is the capacity, and the loop is
blocked. -/
theorem in_flight_bounded_witness :
    ∃ s, run sampleCreateMessage twoDeliveries admitOnlySchedule (loopEntry twoDeliveries)
        = some s ∧
      inFlight s = 1 ∧ s.pc = LoopPc.acquiring sampleDelivery2 ∧
      stepLoop sampleCreateMessage twoDeliveries s = none := by
  have hsome : (run sampleCreateMessage twoDeliveries admitOnlySchedule
      (loopEntry twoDeliveries)).isSome = true := by decide
  obtain ⟨s, hs⟩ := Option.isSome_iff_exists.mp hsome
  have hfl : (run sampleCreateMessage twoDeliveries admitOnlySchedule
      (loopEntry twoDeliveries)).map inFlight = some 1 := by decide
  have hpc : (run sampleCreateMessage twoDeliveries admitOnlySchedule
      (loopEntry twoDeliveries)).map (fun s => s.pc)
        = some (LoopPc.acquiring sampleDelivery2) := by decide
  rw [hs] at hfl hpc
  simp only [Option.map_some', Option.some.injEq] at hfl hpc
  have h := (in_flight_bounded sampleCreateMessage 1
    (streamQueue [sampleDelivery, sampleDelivery2]) (sampleQueue none none none)
    (sampleQueue none none none) (constHandler samplePub NewSuccessResult) Logger.mk
    twoDeliveries rfl).2 admitOnlySchedule s hs
  exact ⟨s, hs, hfl, hpc, h.2.2.2 sampleDelivery2 hpc (by rw [hfl]; rfl)⟩

/-- The delivery invariant holds when the loop is entered on an opened stream. -/
theorem DeliveryInv_entry (c : consumer) (msgs : List Delivery)
    (hs : c.cmds.Consume = (msgs, none)) : DeliveryInv msgs (loopEntry c) := by
  simp [DeliveryInv, loopEntry, hs, processed]

/-- The delivery invariant is kept by every step. -/
theorem DeliveryInv_step (CreateMessage : Result → Publishing × Option GoError)
    (c : consumer) (msgs : List Delivery) (ch : Choice) (s s1 : LoopState)
    (hinv : DeliveryInv msgs s) (h : step CreateMessage c ch s = some s1) :
    DeliveryInv msgs s1 := by
  obtain ⟨hne, hord, hdone, hperm⟩ := hinv
  cases ch with
  | loop =>
    rcases stepLoop_inv CreateMessage c s s1 h with
      ⟨d, rest, hpc, hst, rfl⟩ | ⟨hpc, hst, rfl⟩ | ⟨d, hpc, -, rfl⟩
    · refine ⟨by simp, ?_, by simp, ?_⟩
      · simp only [hpc, hst] at hord
        simpa using hord
      · simp only [processed_append]
        simpa [processed] using hperm
    · refine ⟨by simp, ?_, fun _ => hst, hperm⟩
      simp only [hpc, hst] at hord
      simpa [hst] using hord
    · refine ⟨by simp, ?_, by simp, ?_⟩
      · simp only [hpc] at hord
        simpa using hord
      · obtain ⟨-, -, hp⟩ := handleMessage_projections CreateMessage c d
        simp only [processed_append, List.flatten_append, List.flatten_cons,
          List.flatten_nil, List.append_nil, hp]
        have h0 : processed [Event.acquire 1] = [] := by simp [processed]
        rw [h0, List.append_nil, ← List.append_assoc]
        exact List.Perm.append_right [d] hperm
  | worker i =>
    obtain ⟨pre, post, e, rest, hw, hw1, htr, hpc, hstr, hst, -⟩ := stepWorker_inv i s s1 h
    refine ⟨by rw [hpc]; exact hne, by rw [hpc, hstr, hst]; exact hord,
      by rw [hpc, hstr]; exact hdone, ?_⟩
    rw [hst, htr, hw1]
    refine List.Perm.trans ?_ hperm
    rw [hw]
    rw [List.perm_iff_count]
    intro a
    simp only [processed_append, List.flatten_append, List.flatten_cons, List.count_append,
      processed_cons e rest]
    omega

/-- The delivery invariant holds in every state a schedule reaches. -/
theorem DeliveryInv_run (CreateMessage : Result → Publishing × Option GoError)
    (c : consumer) (msgs : List Delivery) (sched : List Choice) :
    ∀ s s1 : LoopState, DeliveryInv msgs s → run CreateMessage c sched s = some s1 →
      DeliveryInv msgs s1 := by
  induction sched with
  | nil =>
    intro s s1 hinv h
    simp [run] at h
    rw [← h]; exact hinv
  | cons ch rest ih =>
    intro s s1 hinv h
    simp only [run] at h
    cases hs : step CreateMessage c ch s with
    | none => simp [hs] at h
    | some s2 =>
      simp only [hs] at h
      exact ih s2 s1 (DeliveryInv_step CreateMessage c msgs ch s s2 hinv hs) h

/-- Every step uses up one of the steps left. -/
theorem stepsLeft_step (CreateMessage : Result → Publishing × Option GoError)
    (c : consumer) (ch : Choice) (s s1 : LoopState)
    (h : step CreateMessage c ch s = some s1) :
    stepsLeft CreateMessage c s1 + 1 = stepsLeft CreateMessage c s := by
  cases ch with
  | loop =>
    rcases stepLoop_inv CreateMessage c s s1 h with
      ⟨d, rest, hpc, hst, rfl⟩ | ⟨hpc, hst, rfl⟩ | ⟨d, hpc, -, rfl⟩
    · simp only [stepsLeft, hpc, hst, List.map_cons, List.sum_cons]
      omega
    · simp only [stepsLeft, hpc, hst]
      omega
    · simp only [stepsLeft, hpc, List.flatten_append, List.flatten_cons, List.flatten_nil,
        List.length_append, List.append_nil]
      omega
  | worker i =>
    obtain ⟨pre, post, e, rest, hw, hw1, -, hpc, hstr, -, -⟩ := stepWorker_inv i s s1 h
    simp only [stepsLeft, hpc, hstr, hw, hw1, List.flatten_append, List.flatten_cons,
      List.length_append, List.length_cons]
    omega

/-- A schedule that runs has as many choices as steps were used up. -/
theorem stepsLeft_run (CreateMessage : Result → Publishing × Option GoError)
    (c : consumer) (sched : List Choice) :
    ∀ s s1 : LoopState, run CreateMessage c sched s = some s1 →
      sched.length + stepsLeft CreateMessage c s1 = stepsLeft CreateMessage c s := by
  induction sched with
  | nil =>
    intro s s1 h
    simp [run] at h
    rw [h]; simp
  | cons ch rest ih =>
    intro s s1 h
    simp only [run] at h
    cases hs : step CreateMessage c ch s with
    | none => simp [hs] at h
    | some s2 =>
      simp only [hs] at h
      have h1 := ih s2 s1 h
      have h2 := stepsLeft_step CreateMessage c ch s s2 hs
      simp only [List.length_cons]
      omega

/-- A started worker that still has events can perform its next one. -/
theorem worker_can_step (n : Int) (s : LoopState) (hinv : PermitsInv n s)
    (w : List Event) (hw : w ∈ s.workers) (hne : w ≠ []) :
    ∃ i s1, stepWorker i s = some s1 := by
  obtain ⟨-, hcur, -, hok, -, -, -⟩ := hinv
  obtain ⟨i, hi⟩ := List.getElem?_of_mem hw
  cases w with
  | nil => exact absurd rfl hne
  | cons e rest =>
    refine ⟨i, ?_⟩
    unfold stepWorker
    rw [hi]
    cases e
    case release k =>
      obtain ⟨hk, -, -⟩ := WorkerOk_release k rest (hok _ hw)
      subst hk
      have hpos : 0 < inFlight s := by
        unfold inFlight
        rw [List.countP_pos_iff]
        refine ⟨_, hw, ?_⟩
        rw [releases_cons]
        simp [releases]
      have hrel : ¬ (s.sem.cur - 1 < 0) := by omega
      simp [Weighted.Release, hrel]
    all_goals simp

/-- A state that is not finished can make a step: the loop moves, or, when it is
blocked on the semaphore or has returned, a worker in flight moves. -/
theorem progress (CreateMessage : Result → Publishing × Option GoError) (c : consumer)
    (n : Int) (hn : 1 ≤ n) (s : LoopState) (hinv : PermitsInv n s)
    (hfin : finished s = false) :
    ∃ ch s1, step CreateMessage c ch s = some s1 := by
  have hworker : ∀ w ∈ s.workers, w ≠ [] → ∃ ch s1, step CreateMessage c ch s = some s1 := by
    intro w hw hne
    obtain ⟨i, s1, h⟩ := worker_can_step n s hinv w hw hne
    exact ⟨Choice.worker i, s1, h⟩
  have hidle : (s.pc = LoopPc.done ∨ s.pc = LoopPc.exited) →
      ∃ ch s1, step CreateMessage c ch s = some s1 := by
    intro hpc
    have hall : s.workers.all List.isEmpty = false := by
      unfold finished at hfin
      rcases hpc with hpc | hpc <;> simpa [hpc] using hfin
    have hex : ∃ w ∈ s.workers, w ≠ [] := by
      by_contra hcon
      push_neg at hcon
      have : s.workers.all List.isEmpty = true := by
        rw [List.all_eq_true]
        intro w hw
        simp [hcon w hw]
      rw [this] at hall
      exact Bool.noConfusion hall
    obtain ⟨w, hw, hne⟩ := hex
    exact hworker w hw hne
  cases hpc : s.pc with
  | ranging =>
    cases hst : s.stream with
    | nil =>
      refine ⟨Choice.loop, ?_⟩
      simp [step, stepLoop, hpc, hst]
    | cons d rest =>
      refine ⟨Choice.loop, ?_⟩
      simp [step, stepLoop, hpc, hst]
  | acquiring d =>
    by_cases hg : s.sem.size - s.sem.cur ≥ 1
    · refine ⟨Choice.loop, ?_⟩
      simp [step, stepLoop, hpc, Weighted.Acquire, hg]
    · obtain ⟨hsize, hcur, -, -, -, -, -⟩ := hinv
      have hpos : 0 < inFlight s := by omega
      unfold inFlight at hpos
      rw [List.countP_pos_iff] at hpos
      obtain ⟨w, hw, hrel⟩ := hpos
      have hne : w ≠ [] := by
        intro h0
        rw [h0] at hrel
        simp [releases] at hrel
      exact hworker w hw hne
  | done => exact hidle (Or.inl hpc)
  | exited => exact hidle (Or.inr hpc)

/-- From every state that satisfies the permit invariant some schedule reaches a
finished state. -/
theorem exists_finishing_run (CreateMessage : Result → Publishing × Option GoError)
    (c : consumer) (n : Int) (hn : 1 ≤ n) :
    ∀ (k : Nat) (s : LoopState), stepsLeft CreateMessage c s = k → PermitsInv n s →
      ∃ sched s1, run CreateMessage c sched s = some s1 ∧ finished s1 = true := by
  intro k
  induction k using Nat.strong_induction_on with
  | _ k ih =>
    intro s hk hinv
    cases hfin : finished s with
    | true => exact ⟨[], s, rfl, hfin⟩
    | false =>
      obtain ⟨ch, s1, hstep⟩ := progress CreateMessage c n hn s hinv hfin
      have hdec := stepsLeft_step CreateMessage c ch s s1 hstep
      obtain ⟨sched, s2, hrun, hfin2⟩ :=
        ih (stepsLeft CreateMessage c s1) (by omega) s1 rfl
          (PermitsInv_step CreateMessage c n ch s s1 hinv hstep)
      exact ⟨ch :: sched, s2, by simp [run, hstep, hrun], hfin2⟩

/-- C16: for every finite sequence `msgs` the commands stream yields before it closes:
in every reachable state the deliveries started are a prefix of `msgs`, and all of
`msgs` once the loop has returned, which it does only on the closed stream; in every
finished state the loop has returned, the deliveries started are `msgs` in stream
order and the `Process` calls made are `msgs` up to order, one per delivery; every
schedule uses up the steps left, so no run is longer than the initial count; a state
that is not finished can always step; and some schedule reaches a finished state. -/
theorem loop_processes_each_delivery_once
    (CreateMessage : Result → Publishing × Option GoError) (n : Int)
    (cmds errors completion : AMQPService) (handle : DeliveryHandler) (log : Logger)
    (c : consumer) (msgs : List Delivery)
    (hc : (NewCommandController n cmds errors completion handle log).1 = some c)
    (hstream : cmds.Consume = (msgs, none)) :
    (∀ (sched : List Choice) (s : LoopState),
      run CreateMessage c sched (loopEntry c) = some s →
      s.started <+: msgs ∧
      (s.pc = LoopPc.done → s.stream = [] ∧ s.started = msgs) ∧
      sched.length + stepsLeft CreateMessage c s = stepsLeft CreateMessage c (loopEntry c) ∧
      (finished s = false → ∃ ch s1, step CreateMessage c ch s = some s1) ∧
      (finished s = true →
        s.pc = LoopPc.done ∧ s.stream = [] ∧ s.started = msgs ∧
        List.Perm (processed s.trace) msgs ∧
        (processed s.trace).length = msgs.length)) ∧
    ∃ (sched : List Choice) (s : LoopState),
      run CreateMessage c sched (loopEntry c) = some s ∧ finished s = true := by
  obtain ⟨hn, hsem, -, hcons⟩ :=
    NewCommandController_some n cmds errors completion handle log c hc
  have hentry : PermitsInv n (loopEntry c) := PermitsInv_entry n c (by omega) hsem
  have hdel : DeliveryInv msgs (loopEntry c) :=
    DeliveryInv_entry c msgs (by rw [hcons]; exact hstream)
  constructor
  · intro sched s hrun
    have hinv := PermitsInv_run CreateMessage c n sched (loopEntry c) s hentry hrun
    obtain ⟨hne, hord, hdone, hperm⟩ :=
      DeliveryInv_run CreateMessage c msgs sched (loopEntry c) s hdel hrun
    have hret : s.pc = LoopPc.done → s.stream = [] ∧ s.started = msgs := by
      intro hpc
      have hstr : s.stream = [] := hdone hpc
      rw [hpc, hstr] at hord
      exact ⟨hstr, by simpa using hord⟩
    refine ⟨?_, hret, stepsLeft_run CreateMessage c sched (loopEntry c) s hrun,
      progress CreateMessage c n hn s hinv, ?_⟩
    · rw [← hord, List.append_assoc]
      exact List.prefix_append _ _
    · intro hfin
      have hfin2 := hfin
      unfold finished at hfin2
      simp only [Bool.and_eq_true, Bool.or_eq_true, beq_iff_eq, List.all_eq_true] at hfin2
      have hpc : s.pc = LoopPc.done := by
        rcases hfin2.1 with h | h
        · exact h
        · exact absurd h hne
      have hstr : s.stream = [] := (hret hpc).1
      have hstarted : s.started = msgs := (hret hpc).2
      have hflat : s.workers.flatten = [] := by
        rw [List.flatten_eq_nil_iff]
        intro w hw
        simpa using hfin2.2 w hw
      have hp : List.Perm (processed s.trace) msgs := by
        rw [hflat] at hperm
        rw [← hstarted]
        simpa [processed] using hperm
      exact ⟨hpc, hstr, hstarted, hp, hp.length_eq⟩
  · exact exists_finishing_run CreateMessage c n hn _ (loopEntry c) rfl hentry

/-- Witness for C16: with one permit, the sequential schedule over the stream of the two
sample deliveries reaches a finished state; `Process` was called on the first delivery
and then on the second, and the loop has returned. -/
theorem loop_processes_each_delivery_once_witness :
    ∃ s, run sampleCreateMessage twoDeliveries sequentialSchedule (loopEntry twoDeliveries)
        = some s ∧
      finished s = true ∧ s.pc = LoopPc.done ∧
      s.started = [sampleDelivery, sampleDelivery2] ∧
      processed s.trace = [sampleDelivery, sampleDelivery2] ∧
      List.Perm (processed s.trace) [sampleDelivery, sampleDelivery2] := by
  have hsome : (run sampleCreateMessage twoDeliveries sequentialSchedule
      (loopEntry twoDeliveries)).isSome = true := by decide
  obtain ⟨s, hs⟩ := Option.isSome_iff_exists.mp hsome
  have hfin : (run sampleCreateMessage twoDeliveries sequentialSchedule
      (loopEntry twoDeliveries)).map finished = some true := by decide
  have hpr : (run sampleCreateMessage twoDeliveries sequentialSchedule
      (loopEntry twoDeliveries)).map (fun s => processed s.trace)
        = some [sampleDelivery, sampleDelivery2] := by decide
  rw [hs] at hfin hpr
  simp only [Option.map_some', Option.some.injEq] at hfin hpr
  have h := ((loop_processes_each_delivery_once sampleCreateMessage 1
    (streamQueue [sampleDelivery, sampleDelivery2]) (sampleQueue none none none)
    (sampleQueue none none none) (constHandler samplePub NewSuccessResult) Logger.mk
    twoDeliveries [sampleDelivery, sampleDelivery2] rfl rfl).1
      sequentialSchedule s hs).2.2.2.2 hfin
  exact ⟨s, hs, hfin, h.1, h.2.2.1, hpr, h.2.2.2.1⟩

/-- On a controller whose start guard is set, any number of `Start` calls enters no
loop and leaves the controller as it is. -/
theorem startTimes_done (k : Nat) (c : consumer) (h : c.once.done = true) :
    startTimes k c = (c, []) := by
  induction k with
  | zero => rfl
  | succ k ih => simp [startTimes, Start, h, ih]

/-- The entry of the loop calls `Consume` once, on the commands queue. -/
theorem consumes_loopEntry (c : consumer) : consumes (loopEntry c).trace = [Queue.cmds] := by
  unfold loopEntry
  rcases hc : c.cmds.Consume with ⟨msgs, _ | e⟩ <;> simp [consumes]

/-- C15: for every `N ≥ 1`, `N` calls of `Start` on a built controller enter the loop
exactly once, in the first call, so `cmds.Consume` is called exactly once; after any
number of calls a further call enters no loop and returns the controller unchanged. -/
theorem start_runs_loop_once (N : Nat) (hN : 1 ≤ N) (n : Int)
    (cmds errors completion : AMQPService) (handle : DeliveryHandler) (log : Logger)
    (c : consumer)
    (hc : (NewCommandController n cmds errors completion handle log).1 = some c) :
    (Start c).2 = some (loopEntry c) ∧
    (startTimes N c).2 = [loopEntry c] ∧
    ((startTimes N c).2.map (fun l => consumes l.trace)).flatten = [Queue.cmds] ∧
    (startTimes N c).1 = { c with once := { done := true } } ∧
    Start (startTimes N c).1 = ((startTimes N c).1, none) := by
  obtain ⟨-, -, hfresh, -⟩ := NewCommandController_some n cmds errors completion handle log c hc
  obtain ⟨k, rfl⟩ : ∃ k, N = k + 1 := ⟨N - 1, by omega⟩
  have hstart : Start c = ({ c with once := { done := true } }, some (loopEntry c)) := by
    simp [Start, hfresh]
  have hrest : startTimes k { c with once := { done := true } }
      = ({ c with once := { done := true } }, []) :=
    startTimes_done k _ rfl
  have hall : startTimes (k + 1) c
      = ({ c with once := { done := true } }, [loopEntry c]) := by
    simp [startTimes, hstart, hrest]
  refine ⟨by rw [hstart], by rw [hall], ?_, by rw [hall], ?_⟩
  · rw [hall]
    simp [consumes_loopEntry]
  · rw [hall]
    simp [Start]

/-- Witness for C15: three calls of `Start` on the sample controller enter one loop, the
one of the first call, and a fourth call enters none. -/
theorem start_runs_loop_once_witness :
    (startTimes 3 twoDeliveries).2 = [loopEntry twoDeliveries] ∧
    ((startTimes 3 twoDeliveries).2.map (fun l => consumes l.trace)).flatten
      = [Queue.cmds] ∧
    (Start (startTimes 3 twoDeliveries).1).2 = none := by
  have h := start_runs_loop_once 3 (by decide) 1
    (streamQueue [sampleDelivery, sampleDelivery2]) (sampleQueue none none none)
    (sampleQueue none none none) (constHandler samplePub NewSuccessResult) Logger.mk
    twoDeliveries rfl
  exact ⟨h.2.1, h.2.2.1, by rw [h.2.2.2.2]⟩

end Genesis
